import Mathlib

/-!
Verification of the payment-reconciliation service.

This file is a shallow embedding, in Lean 4, of the core of the
reconciliation service: the match kernel and the reconcilers of
`app/services/reconciler.py`, the storage operations of `app/storage.py`
that they consume, the webhook ingest handlers of
`app/services/process_payment_webhook.py` and
`app/services/process_transaction_webhook.py`, and the signature
verification of `app/dependencies/webhooks.py` (including executable
SHA-256 / HMAC-SHA256 and the canonical JSON serialization).

Conventions of the embedding:

* Python `Decimal` amounts are exact rationals (`ℚ`).  Every amount the
  service stores is written with `str(...)` and read back through
  `to_decimal(value) = Decimal(str(value)) if value else Decimal("0")`,
  which is the identity on the parsed rational (an absent/empty value
  reads as 0, and `Decimal("0")` is falsy but maps to 0 anyway), so the
  string round-trip is absorbed into the `ℚ` fields.
* Optional strings (`str | None` in Python) are `Option String`; the
  pervasive Python truthiness test `if not x` on them is `is_blank`
  (true for `none` and for `some ""`).
* Python dicts keyed by id (the `payments` and `transactions` tables)
  are association lists in insertion order; writing an existing key
  replaces the record in place, a new key appends (`dict_insert`).
* `generate_id` derives ids in the source from the wall clock and a
  uuid4 fragment; its role is to produce an identifier distinct from
  every id in use in its table.  We model that uniqueness directly: the
  generated id is strictly longer than every id in use.
* `datetime.now()` timestamps are a logical clock ticked on each write.
-/

namespace ReconService

/-- PaymentStatus from src/app/services/payments/constants.py (the module
reconciler.py imports as app.services.constants has the same enum). -/
inductive PaymentStatus where
  | PENDING
  | PARTIALLY_PAID
  | FULLY_PAID
  | OVERPAID
deriving DecidableEq, Repr

/-- MatchType from src/app/services/payments/constants.py. -/
inductive MatchType where
  | EXACT
  | FUZZY_REF
  | AMOUNT_ONLY
deriving DecidableEq, Repr

/-- Python truthiness of a `str | None` value: `not x` is true for `None`
and for the empty string. -/
def is_blank (s : Option String) : Bool := (s.getD "") == ""

/-- Substring test on character lists: Python's `a in b` for strings. -/
def char_sublist : List Char → List Char → Bool
  | needle, [] => needle.isEmpty
  | needle, c :: rest => needle.isPrefixOf (c :: rest) || char_sublist needle rest

/-- Python `a in b` on strings: `a` occurs contiguously in `b`. -/
def str_in (a b : String) : Bool := char_sublist a.data b.data

/-- Python str.lower, character by character (ASCII case folding). -/
def lower (s : String) : String := String.mk (s.data.map Char.toLower)

/-- Python str.strip with no argument: surrounding whitespace removed. -/
def strip (s : String) : String :=
  String.mk (((s.data.dropWhile Char.isWhitespace).reverse.dropWhile Char.isWhitespace).reverse)

/-- Modelled from the spec: `fee_tolerance_percent` is "a configured
non-negative decimal" (environment option `FEE_TOLERANCE_PERCENT`).
The Settings dataclass in src/app/config.py does not define this field,
so reading `settings.fee_tolerance_percent` in `get_tolerance`
(src/app/services/reconciler.py) has no value in the repository; every
definition below that needs it takes it as the explicit parameter
`ftp : ℚ`. -/
def get_tolerance (ftp : ℚ) (amount : ℚ) : ℚ := amount * ftp / 100

/-- Field names of the Settings dataclass in src/app/config.py, in
declaration order. -/
def settingsFields : List String :=
  ["mock_provider_url", "mock_provider_api_key", "webhook_secret",
   "host", "port", "debug"]

/-- normalize_ref from src/app/services/reconciler.py: lowercase, strip
surrounding whitespace, remove hyphens; blank input normalizes to "". -/
def normalize_ref (ref : Option String) : String :=
  if is_blank ref then ""
  else String.mk ((strip (lower (ref.getD ""))).data.filter (fun c => !(c == '-')))

/-- payer_matches from src/app/services/reconciler.py: blank on either
side is false; otherwise case-insensitive equality or substring
containment in either direction. -/
def payer_matches (payer1 payer2 : Option String) : Bool :=
  if is_blank payer1 || is_blank payer2 then false
  else
    let p1 := lower (payer1.getD "")
    let p2 := lower (payer2.getD "")
    p1 == p2 || str_in p1 p2 || str_in p2 p1

/-- match_reference from src/app/services/reconciler.py: blank on either
side is none; EXACT when equal after strip; FUZZY_REF when equal after
normalize_ref; otherwise none. -/
def match_reference (txn_ref payment_ref : Option String) : Option MatchType :=
  if is_blank txn_ref || is_blank payment_ref then none
  else if strip (txn_ref.getD "") == strip (payment_ref.getD "") then some MatchType.EXACT
  else if normalize_ref txn_ref == normalize_ref payment_ref then some MatchType.FUZZY_REF
  else none

/-- calculate_payment_status from src/app/services/reconciler.py, with the
fee tolerance percent as the explicit parameter `ftp`. -/
def calculate_payment_status (ftp : ℚ) (expected received : ℚ) : PaymentStatus :=
  if received ≤ 0 then PaymentStatus.PENDING
  else if expected < received then PaymentStatus.OVERPAID
  else if expected - get_tolerance ftp expected ≤ received then PaymentStatus.FULLY_PAID
  else PaymentStatus.PARTIALLY_PAID

/-- Payment record as built by JsonStorage.add_payment in
src/app/storage.py: the webhook fields plus the derived fields
status, received_amount, created_at, updated_at. -/
structure Payment where
  payment_id : String
  reference : Option String
  expected_amount : ℚ
  currency : String
  payer_name : Option String
  payer_email : Option String
  due_date : Option String
  description : Option String
  status : PaymentStatus
  received_amount : ℚ
  created_at : Nat
  updated_at : Nat
deriving DecidableEq, Repr

/-- Transaction record as built by JsonStorage.add_transaction in
src/app/storage.py. -/
structure Txn where
  transaction_id : String
  reference : Option String
  amount : ℚ
  currency : String
  payer_name : Option String
  payer_account_last_four : Option String
  settled_at : Option String
  bank_reference : Option String
  matched : Bool
  matched_to_payment_id : Option String
  created_at : Nat
deriving DecidableEq, Repr

/-- Reconciliation link record as built by
JsonStorage.add_reconciliation_link in src/app/storage.py. -/
structure Link where
  link_id : String
  payment_id : String
  transaction_id : String
  match_type : MatchType
  amount : ℚ
  notes : Option String
  created_at : Nat
deriving DecidableEq, Repr

/-- amount_matches_remaining from src/app/services/reconciler.py. -/
def amount_matches_remaining (ftp : ℚ) (txn_amount : ℚ) (payment : Payment) : Bool :=
  let remaining := payment.expected_amount - payment.received_amount
  decide (txn_amount ≤ remaining) ||
    decide (remaining - get_tolerance ftp remaining ≤ txn_amount)

/-- Storage state: the three tables of JsonStorage in src/app/storage.py
(payments and transactions are dicts keyed by id, kept here as lists in
insertion order; reconciliation_links is an ordered list), plus the
logical clock standing for `datetime.now()`. -/
structure Storage where
  payments : List Payment
  transactions : List Txn
  links : List Link
  clock : Nat
deriving DecidableEq, Repr

/-- Storage as JsonStorage initializes it. -/
def empty_storage : Storage := { payments := [], transactions := [], links := [], clock := 0 }

/-- Python dict write on an id-keyed table: replace the record with the
same key in place, or append when the key is new. -/
def dict_insert {α : Type} (key : α → String) (l : List α) (x : α) : List α :=
  if l.any (fun y => key y == key x) then l.map (fun y => if key y == key x then x else y)
  else l ++ [x]

/-- Longest length among a list of strings. -/
def max_length (l : List String) : Nat := l.foldr (fun s m => max s.length m) 0

/-- generate_id from src/app/storage.py builds an id from the wall clock
and a uuid4 fragment; we model the uniqueness it is used for by making
the generated id strictly longer than every id in use. -/
def generate_id (tag : String) (used : List String) : String :=
  tag ++ String.mk (List.replicate (max_length used + 1) '_')

/-- JsonStorage.get_payment: dict lookup by payment_id. -/
def get_payment (s : Storage) (pid : String) : Option Payment :=
  s.payments.find? (fun p => p.payment_id == pid)

/-- JsonStorage.get_transaction: dict lookup by transaction_id. -/
def get_transaction (s : Storage) (tid : String) : Option Txn :=
  s.transactions.find? (fun t => t.transaction_id == tid)

/-- JsonStorage.get_all_payments as defined in src/app/storage.py: it
takes no filter parameters and returns every payment in insertion
order. -/
def get_all_payments (s : Storage) : List Payment := s.payments

/-- Modelled from the spec: "get_all_payments(currency?, status_in?) →
ordered list — filters are optional; ordering is insertion order".
The reconciler (src/app/services/reconciler.py) calls
storage.get_all_payments with `currency=` and `status__in=` keyword
filters, but JsonStorage.get_all_payments in src/app/storage.py takes
no such parameters, so the filtered operation the callers rely on is
missing from the repository; this definition follows the spec's words. -/
def get_all_payments_filtered (s : Storage) (currency : Option String)
    (statusIn : Option (List PaymentStatus)) : List Payment :=
  s.payments.filter (fun p =>
    (match currency with | none => true | some c => p.currency == c) &&
    (match statusIn with | none => true | some l => l.contains p.status))

/-- JsonStorage.get_unmatched_transactions: the transactions with
`matched` false, in insertion order. -/
def get_unmatched_transactions (s : Storage) : List Txn :=
  s.transactions.filter (fun t => !t.matched)

/-- JsonStorage.get_all_reconciliation_links. -/
def get_all_reconciliation_links (s : Storage) : List Link := s.links

/-- The `payment_data` dict handed to JsonStorage.add_payment (absent
keys read as `None`; a missing or empty payment_id is falsy, covered
here by the empty string). -/
structure PaymentIn where
  payment_id : String
  reference : Option String
  expected_amount : ℚ
  currency : Option String
  payer_name : Option String
  payer_email : Option String
  due_date : Option String
  description : Option String
deriving DecidableEq, Repr

/-- JsonStorage.add_payment from src/app/storage.py: key the record by
the given payment_id (or a generated one when it is falsy), build a
fresh record with status "PENDING" and received_amount "0.00", write it
into the dict — overwriting any record under the same key — and return
the fresh record. -/
def add_payment (s : Storage) (pin : PaymentIn) : Storage × Payment :=
  let pid := if pin.payment_id == "" then generate_id "pay" (s.payments.map Payment.payment_id)
             else pin.payment_id
  let record : Payment :=
    { payment_id := pid, reference := pin.reference,
      expected_amount := pin.expected_amount, currency := pin.currency.getD "USD",
      payer_name := pin.payer_name, payer_email := pin.payer_email,
      due_date := pin.due_date, description := pin.description,
      status := PaymentStatus.PENDING, received_amount := 0,
      created_at := s.clock, updated_at := s.clock }
  ({ s with payments := dict_insert Payment.payment_id s.payments record,
            clock := s.clock + 1 }, record)

/-- The `transaction_data` dict handed to JsonStorage.add_transaction. -/
structure TxnIn where
  transaction_id : String
  reference : Option String
  amount : ℚ
  currency : Option String
  payer_name : Option String
  payer_account_last_four : Option String
  settled_at : Option String
  bank_reference : Option String
deriving DecidableEq, Repr

/-- JsonStorage.add_transaction from src/app/storage.py: default
`matched` false and `matched_to_payment_id` none. -/
def add_transaction (s : Storage) (tin : TxnIn) : Storage × Txn :=
  let tid := if tin.transaction_id == "" then
               generate_id "txn" (s.transactions.map Txn.transaction_id)
             else tin.transaction_id
  let record : Txn :=
    { transaction_id := tid, reference := tin.reference, amount := tin.amount,
      currency := tin.currency.getD "USD", payer_name := tin.payer_name,
      payer_account_last_four := tin.payer_account_last_four,
      settled_at := tin.settled_at, bank_reference := tin.bank_reference,
      matched := false, matched_to_payment_id := none, created_at := s.clock }
  ({ s with transactions := dict_insert Txn.transaction_id s.transactions record,
            clock := s.clock + 1 }, record)

/-- JsonStorage.update_payment, specialized to the one update dict the
service passes it (received_amount and status, from
update_payment_received); it merges the fields and bumps updated_at. -/
def update_payment (s : Storage) (pid : String) (received : ℚ) (st : PaymentStatus) : Storage :=
  let f := fun (p : Payment) =>
    if p.payment_id == pid then
      { p with received_amount := received, status := st, updated_at := s.clock }
    else p
  { s with payments := s.payments.map f, clock := s.clock + 1 }

/-- JsonStorage.update_transaction, specialized to the one update dict
the service passes it (matched and matched_to_payment_id, from
create_reconciliation_link). -/
def update_transaction (s : Storage) (tid : String) (pid : String) : Storage :=
  { s with transactions := s.transactions.map (fun t =>
      if t.transaction_id == tid then
        { t with matched := true, matched_to_payment_id := some pid }
      else t) }

/-- JsonStorage.add_reconciliation_link: append the link record with a
generated link_id and created_at. -/
def add_reconciliation_link (s : Storage) (pid tid : String) (mt : MatchType)
    (amount : ℚ) (notes : Option String) : Storage :=
  let record : Link :=
    { link_id := generate_id "link" (s.links.map Link.link_id),
      payment_id := pid, transaction_id := tid, match_type := mt,
      amount := amount, notes := notes, created_at := s.clock }
  { s with links := s.links ++ [record], clock := s.clock + 1 }

/-- create_reconciliation_link from src/app/services/reconciler.py:
record the link (notes "Refund" exactly when the transaction amount is
negative) and mark the transaction matched. -/
def create_reconciliation_link (s : Storage) (payment : Payment) (txn : Txn)
    (mt : MatchType) : Storage :=
  let txn_amount := txn.amount
  let s1 := add_reconciliation_link s payment.payment_id txn.transaction_id mt txn_amount
      (if txn_amount < 0 then some "Refund" else none)
  update_transaction s1 txn.transaction_id payment.payment_id

/-- update_payment_received from src/app/services/reconciler.py: re-read
the payment, add the transaction amount to received_amount, recompute
the status, store both; a missing payment is a no-op. -/
def update_payment_received (ftp : ℚ) (s : Storage) (payment_id : String)
    (txn_amount : ℚ) : Storage :=
  match get_payment s payment_id with
  | none => s
  | some payment =>
    let expected := payment.expected_amount
    let new_received := payment.received_amount + txn_amount
    let st := calculate_payment_status ftp expected new_received
    update_payment s payment_id new_received st

/-- TransactionReconciler._match_by_reference: for a transaction with a
non-blank reference, the first payment of the same currency whose
reference matches; the storage iteration is the filtered
get_all_payments call (see get_all_payments_filtered). -/
def match_by_reference (s : Storage) (t : Txn) : Option (Payment × MatchType) :=
  if is_blank t.reference then none
  else (get_all_payments_filtered s (some t.currency) none).findSome? (fun p =>
    match match_reference t.reference p.reference with
    | some mt => some (p, mt)
    | none => none)

/-- TransactionReconciler._match_by_payer_amount: the first same-currency
PENDING/PARTIALLY_PAID payment whose payer matches and whose remaining
amount accepts the absolute transaction amount. -/
def match_by_payer_amount (ftp : ℚ) (s : Storage) (t : Txn) : Option (Payment × MatchType) :=
  if is_blank t.payer_name then none
  else (get_all_payments_filtered s (some t.currency)
      (some [PaymentStatus.PENDING, PaymentStatus.PARTIALLY_PAID])).findSome? (fun p =>
    if payer_matches t.payer_name p.payer_name &&
        amount_matches_remaining ftp |t.amount| p then
      some (p, MatchType.AMOUNT_ONLY)
    else none)

/-- TransactionReconciler._match_refund_by_payer: walk the links in
insertion order, load each link's payment, skip missing payments and
currency mismatches, and return the first whose payer matches, with
match type EXACT. -/
def match_refund_by_payer (s : Storage) (t : Txn) : Option (Payment × MatchType) :=
  if is_blank t.payer_name then none
  else s.links.findSome? (fun link =>
    match get_payment s link.payment_id with
    | none => none
    | some p =>
      if p.currency == t.currency && payer_matches t.payer_name p.payer_name then
        some (p, MatchType.EXACT)
      else none)

/-- TransactionReconciler._find_payment: reference rule first; the
payer+amount rule only when the reference is blank; the refund rule only
when the amount is negative. -/
def find_payment (ftp : ℚ) (s : Storage) (t : Txn) : Option (Payment × MatchType) :=
  match match_by_reference s t with
  | some m => some m
  | none =>
    match (if is_blank t.reference then match_by_payer_amount ftp s t else none) with
    | some m => some m
    | none => if t.amount < 0 then match_refund_by_payer s t else none

/-- TransactionReconciler.__call__: find a payment, and on a hit create
the link, mark the transaction and update the payment; the Bool is the
return value (whether the transaction was linked). -/
def transaction_reconciler (ftp : ℚ) (s : Storage) (t : Txn) : Storage × Bool :=
  match find_payment ftp s t with
  | none => (s, false)
  | some (p, mt) =>
    let s1 := create_reconciliation_link s p t mt
    let s2 := update_payment_received ftp s1 p.payment_id t.amount
    (s2, true)

/-- PaymentReconciler._matches_by_payer_amount: payer match, then the
payment re-read from storage must be PENDING or PARTIALLY_PAID and its
remaining amount must accept the absolute transaction amount. -/
def matches_by_payer_amount (ftp : ℚ) (s : Storage) (p : Payment) (t : Txn) : Bool :=
  payer_matches t.payer_name p.payer_name &&
    (match get_payment s p.payment_id with
     | none => false
     | some cur =>
       (cur.status == PaymentStatus.PENDING || cur.status == PaymentStatus.PARTIALLY_PAID) &&
         amount_matches_remaining ftp |t.amount| cur)

/-- PaymentReconciler._check_match: a reference match wins; otherwise
AMOUNT_ONLY when the transaction has no reference, a positive amount and
the payer+amount conditions hold. -/
def check_match (ftp : ℚ) (s : Storage) (p : Payment) (t : Txn) : Option MatchType :=
  match match_reference t.reference p.reference with
  | some mt => some mt
  | none =>
    if is_blank t.reference && decide (0 < t.amount) then
      (if matches_by_payer_amount ftp s p t then some MatchType.AMOUNT_ONLY else none)
    else none

/-- Loop body of PaymentReconciler.__call__ over the snapshot of
unmatched transactions. -/
def payment_reconciler_loop (ftp : ℚ) (p : Payment) :
    List Txn → Storage → Nat → Storage × Nat
  | [], s, count => (s, count)
  | t :: rest, s, count =>
    if t.currency == p.currency then
      match check_match ftp s p t with
      | some mt =>
        let s1 := create_reconciliation_link s p t mt
        let s2 := update_payment_received ftp s1 p.payment_id t.amount
        payment_reconciler_loop ftp p rest s2 (count + 1)
      | none => payment_reconciler_loop ftp p rest s count
    else payment_reconciler_loop ftp p rest s count

/-- PaymentReconciler.__call__: walk the unmatched transactions (the
snapshot taken at entry), link the matching ones, and return the count
of transactions linked. -/
def payment_reconciler (ftp : ℚ) (s : Storage) (p : Payment) : Storage × Nat :=
  payment_reconciler_loop ftp p (get_unmatched_transactions s) s 0

/-- Payload of a payment.created webhook
(PaymentCreateWebhookIn in src/app/schemas/webhooks.py); the
event_type, timestamp and sandbox_id fields are not read by the
processing path and are omitted. -/
structure PaymentCreateWebhookIn where
  payment_id : String
  reference : String
  expected_amount : ℚ
  currency : String
  payer_name : String
  payer_email : String
  due_date : String
  description : Option String
deriving DecidableEq, Repr

/-- Payload of a transaction.settled webhook
(TransactionSettledWebhookIn in src/app/schemas/webhooks.py). -/
structure TransactionSettledWebhookIn where
  transaction_id : String
  reference : Option String
  amount : ℚ
  currency : String
  payer_name : String
  payer_account_last_four : String
  settled_at : String
  bank_reference : String
deriving DecidableEq, Repr

/-- ProcessPaymentWebhook.__call__ from
src/app/services/process_payment_webhook.py: short-circuit when the
payment_id already exists, else store the payment and run the payment
reconciler on the stored record. -/
def process_payment_webhook (ftp : ℚ) (s : Storage) (payload : PaymentCreateWebhookIn) : Storage :=
  if (get_payment s payload.payment_id).isSome then s
  else
    let pdata : PaymentIn :=
      { payment_id := payload.payment_id, reference := some payload.reference,
        expected_amount := payload.expected_amount, currency := some payload.currency,
        payer_name := some payload.payer_name, payer_email := some payload.payer_email,
        due_date := some payload.due_date, description := payload.description }
    let res := add_payment s pdata
    (payment_reconciler ftp res.1 res.2).1

/-- ProcessTransactionWebhook.__call__ from
src/app/services/process_transaction_webhook.py: short-circuit (returning
false) when the transaction_id already exists, else store the
transaction and run the transaction reconciler on the stored record. -/
def process_transaction_webhook (ftp : ℚ) (s : Storage)
    (payload : TransactionSettledWebhookIn) : Storage × Bool :=
  if (get_transaction s payload.transaction_id).isSome then (s, false)
  else
    let tdata : TxnIn :=
      { transaction_id := payload.transaction_id, reference := payload.reference,
        amount := payload.amount, currency := some payload.currency,
        payer_name := some payload.payer_name,
        payer_account_last_four := some payload.payer_account_last_four,
        settled_at := some payload.settled_at,
        bank_reference := some payload.bank_reference }
    let res := add_transaction s tdata
    transaction_reconciler ftp res.1 res.2

/-- An authenticated, schema-valid webhook event of either kind. -/
inductive Event where
  | payment (e : PaymentCreateWebhookIn)
  | txn (e : TransactionSettledWebhookIn)
deriving DecidableEq, Repr

/-- Ingest one event: the corresponding webhook processor. -/
def ingest (ftp : ℚ) (s : Storage) : Event → Storage
  | Event.payment e => process_payment_webhook ftp s e
  | Event.txn e => (process_transaction_webhook ftp s e).1

/-- Run a sequence of ingests from the initial empty storage. -/
def run (ftp : ℚ) (evts : List Event) : Storage := evts.foldl (ingest ftp) empty_storage

/-- Signed sum of the amounts of the links referencing a payment. -/
def links_sum (links : List Link) (pid : String) : ℚ :=
  ((links.filter (fun l => l.payment_id == pid)).map Link.amount).sum

/-! ### Intake authenticator (src/app/dependencies/webhooks.py)

verify_webhook_signature parses the raw body with `json.loads` into a
dict (insertion-ordered key/value map), drops `sandbox_id` from a copy,
serializes that copy with `json.dumps(..., sort_keys=True,
separators=(",", ":"))`, and compares "sha256=" plus the hex
HMAC-SHA256 of that serialization (keyed by the configured secret)
against the X-Webhook-Signature header with `hmac.compare_digest`.
The webhook payload shapes carry only scalar fields, so the parsed map
is embedded as an ordered association list of scalar JSON values. -/

/-- Scalar JSON value of a webhook payload field.  JSON floats are
binary doubles and out of scope; every amount in the webhook shapes is
a decimal-as-string. -/
inductive JVal where
  | null
  | bool (b : Bool)
  | num (n : Int)
  | str (s : String)
deriving DecidableEq, Repr

/-- Parsed webhook body: the key/value map in insertion order, as
`json.loads` yields it. -/
abbrev JsonObj := List (String × JVal)

/-- Lowercase hex digit of a value below 16. -/
def hex_digit (n : Nat) : Char :=
  if n < 10 then Char.ofNat (48 + n) else Char.ofNat (87 + n)

/-- Four lowercase hex digits, most significant first. -/
def hex4 (n : Nat) : String :=
  String.mk [hex_digit (n / 4096 % 16), hex_digit (n / 256 % 16),
             hex_digit (n / 16 % 16), hex_digit (n % 16)]

/-- Escaping of one character under `json.dumps` defaults
(ensure_ascii true): printable ASCII other than quote and backslash is
literal, the short escapes cover the usual controls, everything else
becomes \uXXXX (astral characters as a surrogate pair). -/
def json_escape_char (c : Char) : String :=
  if c == '"' then "\\\""
  else if c == '\\' then "\\\\"
  else if c == '\n' then "\\n"
  else if c == '\t' then "\\t"
  else if c == '\r' then "\\r"
  else if c.toNat == 8 then "\\b"
  else if c.toNat == 12 then "\\f"
  else if 32 ≤ c.toNat && c.toNat ≤ 126 then String.singleton c
  else if c.toNat < 65536 then "\\u" ++ hex4 c.toNat
  else
    let v := c.toNat - 65536
    "\\u" ++ hex4 (55296 + v / 1024) ++ "\\u" ++ hex4 (56320 + v % 1024)

/-- JSON string literal under `json.dumps` defaults. -/
def json_quote (s : String) : String :=
  "\"" ++ String.join (s.data.map json_escape_char) ++ "\""

/-- Serialization of one scalar value under `json.dumps`. -/
def jval_dumps : JVal → String
  | JVal.null => "null"
  | JVal.bool true => "true"
  | JVal.bool false => "false"
  | JVal.num n => toString n
  | JVal.str s => json_quote s

/-- Comparator on fields used by `sort_keys=True`: Python sorts the
dict items by key (code-point order on strings). -/
def key_le (a b : String × JVal) : Bool := decide (a.1 ≤ b.1)

/-- Canonical JSON of a payload map under
`json.dumps(m, sort_keys=True, separators=(",", ":"))`: keys sorted
lexicographically, "," between members, ":" between key and value, no
whitespace. -/
def canonical_json (payload : JsonObj) : String :=
  let sorted := payload.mergeSort key_le
  "\x7b" ++ String.intercalate ","
      (sorted.map (fun kv => json_quote kv.1 ++ ":" ++ jval_dumps kv.2)) ++ "\x7d"

/-- Copy of the parsed body without the sandbox_id field, used only for
signature computation. -/
def payload_for_signature (payload : JsonObj) : JsonObj :=
  payload.filter (fun kv => kv.1 != "sandbox_id")

/-- UTF-8 bytes of one character (str.encode). -/
def utf8_encode_char (c : Char) : List Nat :=
  let n := c.toNat
  if n < 128 then [n]
  else if n < 2048 then [192 + n / 64, 128 + n % 64]
  else if n < 65536 then [224 + n / 4096, 128 + n / 64 % 64, 128 + n % 64]
  else [240 + n / 262144, 128 + n / 4096 % 64, 128 + n / 64 % 64, 128 + n % 64]

/-- UTF-8 bytes of a string (str.encode). -/
def utf8_bytes (s : String) : List Nat := (s.data.map utf8_encode_char).flatten

/-! SHA-256 (FIPS 180-4) over byte lists, executable with Nat words
reduced mod 2^32; HMAC-SHA256 (FIPS 198-1) on top.  This is the
`hashlib.sha256` / `hmac.new(..., hashlib.sha256)` pair used by
verify_webhook_signature. -/

/-- Reduction of a word to 32 bits. -/
def w32 (n : Nat) : Nat := n % 4294967296

/-- Bitwise complement on 32-bit words. -/
def bnot32 (x : Nat) : Nat := 4294967295 ^^^ x

/-- Right rotation of a 32-bit word. -/
def rotr32 (x n : Nat) : Nat := w32 ((x >>> n) ||| (x <<< (32 - n)))

/-- Ch function of FIPS 180-4. -/
def ch32 (x y z : Nat) : Nat := (x &&& y) ^^^ (bnot32 x &&& z)

/-- Maj function of FIPS 180-4. -/
def maj32 (x y z : Nat) : Nat := (x &&& y) ^^^ (x &&& z) ^^^ (y &&& z)

/-- Big sigma-0 of FIPS 180-4. -/
def bsig0 (x : Nat) : Nat := rotr32 x 2 ^^^ rotr32 x 13 ^^^ rotr32 x 22

/-- Big sigma-1 of FIPS 180-4. -/
def bsig1 (x : Nat) : Nat := rotr32 x 6 ^^^ rotr32 x 11 ^^^ rotr32 x 25

/-- Small sigma-0 of FIPS 180-4. -/
def ssig0 (x : Nat) : Nat := rotr32 x 7 ^^^ rotr32 x 18 ^^^ (x >>> 3)

/-- Small sigma-1 of FIPS 180-4. -/
def ssig1 (x : Nat) : Nat := rotr32 x 17 ^^^ rotr32 x 19 ^^^ (x >>> 10)

/-- The 64 SHA-256 round constants. -/
def sha256K : List Nat :=
  [1116352408, 1899447441, 3049323471, 3921009573, 961987163,
   1508970993, 2453635748, 2870763221, 3624381080, 310598401,
   607225278, 1426881987, 1925078388, 2162078206, 2614888103,
   3248222580, 3835390401, 4022224774, 264347078, 604807628,
   770255983, 1249150122, 1555081692, 1996064986, 2554220882,
   2821834349, 2952996808, 3210313671, 3336571891, 3584528711,
   113926993, 338241895, 666307205, 773529912, 1294757372,
   1396182291, 1695183700, 1986661051, 2177026350, 2456956037,
   2730485921, 2820302411, 3259730800, 3345764771, 3516065817,
   3600352804, 4094571909, 275423344, 430227734, 506948616,
   659060556, 883997877, 958139571, 1322822218, 1537002063,
   1747873779, 1955562222, 2024104815, 2227730452, 2361852424,
   2428436474, 2756734187, 3204031479, 3329325298]

/-- The eight SHA-256 initial hash values. -/
def sha256IV : List Nat :=
  [1779033703, 3144134277, 1013904242, 2773480762,
   1359893119, 2600822924, 528734635, 1541459225]

/-- Big-endian serialization of a value into k bytes. -/
def be_bytes (k : Nat) (n : Nat) : List Nat :=
  (List.range k).map (fun i => (n >>> (8 * (k - 1 - i))) % 256)

/-- Big-endian 32-bit words of a byte list taken four bytes at a time. -/
def words_of_bytes : List Nat → List Nat
  | b0 :: b1 :: b2 :: b3 :: rest =>
      (((b0 * 256 + b1) * 256 + b2) * 256 + b3) :: words_of_bytes rest
  | _ => []

/-- List read with default 0, for the message schedule. -/
def wget (w : List Nat) (i : Nat) : Nat := w.getD i 0

/-- Extension of the 16-word message schedule by the given number of
words (48 for SHA-256). -/
def schedule_extend : Nat → List Nat → List Nat
  | 0, w => w
  | n + 1, w =>
    let k := w.length
    let nw := w32 (wget w (k - 16) + ssig0 (wget w (k - 15)) + wget w (k - 7) + ssig1 (wget w (k - 2)))
    schedule_extend n (w ++ [nw])

/-- One round of the SHA-256 compression function on the eight-word
working state. -/
def sha256_round (st : List Nat) (kw : Nat × Nat) : List Nat :=
  match st with
  | [a, b, c, d, e, f, g, h] =>
    let t1 := w32 (h + bsig1 e + ch32 e f g + kw.1 + kw.2)
    let t2 := w32 (bsig0 a + maj32 a b c)
    [w32 (t1 + t2), a, b, c, w32 (d + t1), e, f, g]
  | other => other

/-- SHA-256 compression of one 64-byte block into the chaining state. -/
def sha256_compress (st : List Nat) (block : List Nat) : List Nat :=
  let w := schedule_extend 48 (words_of_bytes block)
  let out := (sha256K.zip w).foldl sha256_round st
  (st.zip out).map (fun p => w32 (p.1 + p.2))

/-- SHA-256 padding: append 0x80, zero bytes to 56 mod 64, then the
64-bit big-endian bit length. -/
def sha256_pad (msg : List Nat) : List Nat :=
  let len := msg.length
  let zeros := (120 - ((len + 1) % 64)) % 64
  msg ++ [128] ++ List.replicate zeros 0 ++ be_bytes 8 (8 * len)

/-- Split into 64-byte blocks. -/
def chunks64 : List Nat → List (List Nat)
  | [] => []
  | b :: rest => ((b :: rest).take 64) :: chunks64 (rest.drop 63)
termination_by l => l.length
decreasing_by simp only [List.length_drop, List.length_cons]; omega

/-- SHA-256 digest (32 bytes) of a byte list. -/
def sha256_bytes (msg : List Nat) : List Nat :=
  (((chunks64 (sha256_pad msg)).foldl sha256_compress sha256IV).map (be_bytes 4)).flatten

/-- Lowercase hex rendering of a byte list (hexdigest). -/
def bytes_to_hex (bs : List Nat) : String :=
  String.mk ((bs.map (fun b => [hex_digit (b / 16 % 16), hex_digit (b % 16)])).flatten)

/-- HMAC-SHA256 (FIPS 198-1) of a message under a key, both byte
lists. -/
def hmac_sha256 (key msg : List Nat) : List Nat :=
  let k0 := if 64 < key.length then sha256_bytes key else key
  let kp := k0 ++ List.replicate (64 - k0.length) 0
  let ipad := kp.map (fun b => b ^^^ 54)
  let opad := kp.map (fun b => b ^^^ 92)
  sha256_bytes (opad ++ sha256_bytes (ipad ++ msg))

/-- Expected signature computed by verify_webhook_signature: "sha256="
plus the hex HMAC-SHA256, keyed by the UTF-8 secret, of the canonical
JSON of the parsed body without sandbox_id. -/
def expected_signature (secret : String) (payload : JsonObj) : String :=
  "sha256=" ++ bytes_to_hex (hmac_sha256 (utf8_bytes secret)
    (utf8_bytes (canonical_json (payload_for_signature payload))))

/-- ASCII test on one character. -/
def is_ascii_char (c : Char) : Bool := c.toNat < 128

/-- Python str.isascii. -/
def is_ascii (s : String) : Bool := s.data.all is_ascii_char

/-- hmac.compare_digest on two str arguments: constant-time equality;
CPython accepts only ASCII strings and raises TypeError otherwise,
embedded as the error case. -/
def compare_digest (a b : String) : Except Unit Bool :=
  if is_ascii a && is_ascii b then Except.ok (a == b) else Except.error ()

/-- Outcome of one webhook request at the route level. -/
inductive WebhookResult where
  | ok
  | unauthorized
  | internalError
deriving DecidableEq, Repr

/-- verify_webhook_signature from src/app/dependencies/webhooks.py,
from the parsed body on: compute the expected signature and compare it
against the X-Webhook-Signature header with hmac.compare_digest; a
mismatch raises HTTPException 401 before anything touches storage; a
match passes the parsed payload downstream.  (The dump of the payload
to webhook_payloads.json on success is a log file outside the
repository state and is not modelled.) -/
def verify_webhook_signature (secret : String) (payload : JsonObj) (header : String) :
    Except WebhookResult JsonObj :=
  let expected := expected_signature secret payload
  match compare_digest expected header with
  | Except.error _ => Except.error WebhookResult.internalError
  | Except.ok true => Except.ok payload
  | Except.ok false => Except.error WebhookResult.unauthorized

/-- A webhook route as src/app/routers/webhooks.py composes it: the
signature dependency first, then the processing pipeline (schema
validation plus the ingest handler, abstracted as the `downstream`
state transformer) only on the verified payload. -/
def webhook_route (downstream : JsonObj → Storage → Storage) (secret : String)
    (payload : JsonObj) (header : String) (s : Storage) : Storage × WebhookResult :=
  match verify_webhook_signature secret payload header with
  | Except.error r => (s, r)
  | Except.ok p => (downstream p s, WebhookResult.ok)

/-! ### C6: the signature gate -/

/-- Hex digits are ASCII. -/
theorem hex_digit_ascii (n : Nat) (h : n < 16) : is_ascii_char (hex_digit n) = true := by
  interval_cases n <;> decide

/-- Hex renderings are ASCII strings. -/
theorem bytes_to_hex_ascii (bs : List Nat) : is_ascii (bytes_to_hex bs) = true := by
  unfold is_ascii bytes_to_hex
  rw [List.all_eq_true]
  intro c hc
  rw [show (String.mk ((bs.map (fun b => [hex_digit (b / 16 % 16), hex_digit (b % 16)])).flatten)).data
      = (bs.map (fun b => [hex_digit (b / 16 % 16), hex_digit (b % 16)])).flatten from rfl] at hc
  obtain ⟨l, hl, hcl⟩ := List.mem_flatten.mp hc
  obtain ⟨b, _, hbl⟩ := List.mem_map.mp hl
  rw [← hbl] at hcl
  rcases List.mem_cons.mp hcl with h1 | h1
  · rw [h1]
    exact hex_digit_ascii _ (Nat.mod_lt _ (by omega))
  · rw [List.mem_singleton.mp h1]
    exact hex_digit_ascii _ (Nat.mod_lt _ (by omega))

/-- The expected signature is an ASCII string. -/
theorem expected_signature_ascii (secret : String) (payload : JsonObj) :
    is_ascii (expected_signature secret payload) = true := by
  unfold expected_signature is_ascii
  rw [String.data_append, List.all_append]
  have h1 : ("sha256=".data.all is_ascii_char) = true := by decide
  have h2 := bytes_to_hex_ascii (hmac_sha256 (utf8_bytes secret)
    (utf8_bytes (canonical_json (payload_for_signature payload))))
  unfold is_ascii at h2
  rw [h1, h2]
  rfl

/-- Full characterization of the webhook route around the signature
dependency: an ASCII header is accepted exactly when it equals the
expected signature (processing the body downstream), rejected with 401
otherwise; a non-ASCII header makes hmac.compare_digest raise, surfacing
as a 500; in both rejection cases the repository state is untouched. -/
theorem webhook_route_cases (d : JsonObj → Storage → Storage) (secret : String)
    (payload : JsonObj) (header : String) (s : Storage) :
    webhook_route d secret payload header s =
      if is_ascii header then
        (if expected_signature secret payload == header then (d payload s, WebhookResult.ok)
         else (s, WebhookResult.unauthorized))
      else (s, WebhookResult.internalError) := by
  unfold webhook_route verify_webhook_signature compare_digest
  dsimp only []
  rw [expected_signature_ascii, Bool.true_and]
  cases hh : is_ascii header with
  | false => rfl
  | true =>
    simp only [if_true]
    cases heq : (expected_signature secret payload == header) <;> rfl

/-- C6 amended: the verifier computes "sha256=" plus the hex
HMAC-SHA256 (keyed by the configured secret) of the canonical JSON of
the parsed body without sandbox_id; for an ASCII header it rejects with
401 Unauthorized exactly when the header differs from this value, and a
non-ASCII header is rejected through a TypeError from
hmac.compare_digest (a 500) instead of the 401 path; on any rejection
the body is not processed (the state is unchanged), and on a match the
parsed payload is passed downstream. -/
theorem c6_signature_gate (d : JsonObj → Storage → Storage) (secret : String)
    (payload : JsonObj) (header : String) (s : Storage) :
    webhook_route d secret payload header s =
      if is_ascii header then
        (if expected_signature secret payload == header then (d payload s, WebhookResult.ok)
         else (s, WebhookResult.unauthorized))
      else (s, WebhookResult.internalError) :=
  webhook_route_cases d secret payload header s

/-- Payload for the C6 counterexample. -/
def c6_payload : JsonObj :=
  [("event_type", JVal.str "payment.created"), ("sandbox_id", JVal.str "sb")]

/-- C6 counterexample: the non-ASCII header "é" differs from the
expected signature, yet the route does not reject it with 401
Unauthorized — hmac.compare_digest raises on non-ASCII strings, so the
rejection surfaces as an internal error instead. -/
theorem c6_non_ascii_header_counterexample :
    (webhook_route (fun _ s2 => s2) "secret" c6_payload "é" empty_storage).2 =
      WebhookResult.internalError ∧
    (webhook_route (fun _ s2 => s2) "secret" c6_payload "é" empty_storage).1 = empty_storage ∧
    ("é" == expected_signature "secret" c6_payload) = false := by
  have hna : is_ascii "é" = false := by decide
  refine ⟨?_, ?_, ?_⟩
  · rw [webhook_route_cases, hna]
    rfl
  · rw [webhook_route_cases, hna]
    rfl
  · refine beq_eq_false_iff_ne.mpr (fun heq => ?_)
    have hexp := expected_signature_ascii "secret" c6_payload
    rw [← heq] at hexp
    rw [hna] at hexp
    cases hexp

/-! ### C10: the decision depends only on the parsed map -/

/-- The key comparator is transitive. -/
theorem key_le_trans (a b c : String × JVal) (hab : key_le a b = true)
    (hbc : key_le b c = true) : key_le a c = true := by
  unfold key_le at *
  rw [decide_eq_true_iff] at *
  exact le_trans hab hbc

/-- The key comparator is total. -/
theorem key_le_total (a b : String × JVal) : (key_le a b || key_le b a) = true := by
  unfold key_le
  rcases le_total a.1 b.1 with h | h <;> simp [h]

/-- Two key-sorted association lists that are permutations of each
other with distinct keys coincide. -/
theorem sorted_perm_nodup_eq : ∀ (l₁ l₂ : List (String × JVal)),
    List.Pairwise (fun a b => key_le a b = true) l₁ →
    List.Pairwise (fun a b => key_le a b = true) l₂ →
    l₁.Perm l₂ → (l₁.map Prod.fst).Nodup → l₁ = l₂ := by
  intro l₁
  induction l₁ with
  | nil =>
    intro l₂ _ _ hperm _
    exact (List.Perm.nil_eq hperm).symm ▸ rfl
  | cons a t₁ ih =>
    intro l₂ hp₁ hp₂ hperm hnd
    cases l₂ with
    | nil =>
      have := List.Perm.nil_eq hperm.symm
      cases this
    | cons b t₂ =>
      have hcase : a = b := by
        by_contra hne
        have hb1 : b ∈ a :: t₁ := hperm.mem_iff.mpr (List.mem_cons_self b t₂)
        have hbt : b ∈ t₁ := by
          rcases List.mem_cons.mp hb1 with h | h
          · exact absurd h.symm hne
          · exact h
        have ha2 : a ∈ b :: t₂ := hperm.mem_iff.mp (List.mem_cons_self a t₁)
        have hat : a ∈ t₂ := by
          rcases List.mem_cons.mp ha2 with h | h
          · exact absurd h hne
          · exact h
        have hab : key_le a b = true := (List.pairwise_cons.mp hp₁).1 b hbt
        have hba : key_le b a = true := (List.pairwise_cons.mp hp₂).1 a hat
        unfold key_le at hab hba
        rw [decide_eq_true_iff] at hab hba
        have hkey : a.1 = b.1 := le_antisymm hab hba
        rw [List.map_cons, List.nodup_cons] at hnd
        exact hnd.1 (hkey ▸ List.mem_map_of_mem Prod.fst hbt)
      subst hcase
      have htail : t₁ = t₂ := by
        refine ih t₂ (List.pairwise_cons.mp hp₁).2 (List.pairwise_cons.mp hp₂).2
          (hperm.cons_inv) ?_
        rw [List.map_cons, List.nodup_cons] at hnd
        exact hnd.2
      rw [htail]

/-- Canonical JSON is invariant under reordering of a distinct-keyed
map. -/
theorem canonical_json_perm (m₁ m₂ : JsonObj) (h : m₁.Perm m₂)
    (hnd : (m₁.map Prod.fst).Nodup) : canonical_json m₁ = canonical_json m₂ := by
  unfold canonical_json
  have e : m₁.mergeSort key_le = m₂.mergeSort key_le := by
    apply sorted_perm_nodup_eq
    · exact List.sorted_mergeSort key_le_trans key_le_total m₁
    · exact List.sorted_mergeSort key_le_trans key_le_total m₂
    · exact ((List.mergeSort_perm m₁ key_le).trans h).trans (List.mergeSort_perm m₂ key_le).symm
    · exact (((List.mergeSort_perm m₁ key_le).map Prod.fst).nodup_iff).mpr hnd
  rw [e]

/-- Dropping sandbox_id keeps the keys distinct. -/
theorem nodup_keys_payload_for_signature (m : JsonObj) (h : (m.map Prod.fst).Nodup) :
    ((payload_for_signature m).map Prod.fst).Nodup :=
  List.Nodup.sublist (List.Sublist.map Prod.fst (List.filter_sublist m)) h

/-- C10: for any two parsed webhook bodies that agree as key/value maps
once sandbox_id is dropped (permutations of each other, keys distinct),
the verifier computes the same expected signature, and for every header
and repository state the route reaches the same accept/reject
decision — the decision is a function of the sandbox-stripped map, the
secret and the header only. -/
theorem c10_signature_key_order_independent (secret : String) (m₁ m₂ : JsonObj)
    (h₁ : (m₁.map Prod.fst).Nodup)
    (hperm : (payload_for_signature m₁).Perm (payload_for_signature m₂)) :
    expected_signature secret m₁ = expected_signature secret m₂ ∧
    ∀ (d : JsonObj → Storage → Storage) (header : String) (s : Storage),
      (webhook_route d secret m₁ header s).2 = (webhook_route d secret m₂ header s).2 := by
  have hcan : canonical_json (payload_for_signature m₁) =
      canonical_json (payload_for_signature m₂) :=
    canonical_json_perm _ _ hperm (nodup_keys_payload_for_signature m₁ h₁)
  have hexp : expected_signature secret m₁ = expected_signature secret m₂ := by
    unfold expected_signature
    rw [hcan]
  refine ⟨hexp, ?_⟩
  intro d header s
  rw [webhook_route_cases, webhook_route_cases, hexp]
  cases h1 : is_ascii header with
  | false => rfl
  | true =>
    simp only [if_true]
    cases h2 : (expected_signature secret m₂ == header) <;> rfl

/-- First map of the C10 witness: same entries as the second, different
byte order and a different sandbox_id. -/
def c10_m1 : JsonObj :=
  [("b", JVal.str "1"), ("a", JVal.str "2"), ("sandbox_id", JVal.str "x")]

/-- Second map of the C10 witness. -/
def c10_m2 : JsonObj :=
  [("a", JVal.str "2"), ("sandbox_id", JVal.str "y"), ("b", JVal.str "1")]

/-- Witness for C10 on two concrete reorderings. -/
theorem c10_signature_key_order_independent_witness :
    expected_signature "k" c10_m1 = expected_signature "k" c10_m2 :=
  (c10_signature_key_order_independent "k" c10_m1 c10_m2 (by decide) (by decide)).1

/-! ### C4: the status table -/

/-- C4: for every expected_amount ≥ 0 (and the configured non-negative
fee tolerance percent), calculate_payment_status evaluates its rows
top-down with the first match winning: PENDING when received ≤ 0, else
OVERPAID when received > expected, else FULLY_PAID when received ≥
expected − tolerance(expected), else PARTIALLY_PAID; in particular any
received strictly above expected is OVERPAID (never FULLY_PAID), and
received = 0 gives PENDING even when expected = 0. -/
theorem c4_payment_status_table (ftp expected received : ℚ)
    (hftp : 0 ≤ ftp) (hexp : 0 ≤ expected) :
    (received ≤ 0 → calculate_payment_status ftp expected received = PaymentStatus.PENDING) ∧
    (expected < received → calculate_payment_status ftp expected received = PaymentStatus.OVERPAID) ∧
    (0 < received → received ≤ expected → expected - get_tolerance ftp expected ≤ received →
      calculate_payment_status ftp expected received = PaymentStatus.FULLY_PAID) ∧
    (0 < received → received < expected - get_tolerance ftp expected →
      calculate_payment_status ftp expected received = PaymentStatus.PARTIALLY_PAID) ∧
    (received = 0 → calculate_payment_status ftp expected received = PaymentStatus.PENDING) := by
  have htol : 0 ≤ get_tolerance ftp expected := by
    unfold get_tolerance
    positivity
  refine ⟨?_, ?_, ?_, ?_, ?_⟩
  · intro h
    simp [calculate_payment_status, h]
  · intro h
    have h0 : ¬ received ≤ 0 := by linarith
    simp [calculate_payment_status, h0, h]
  · intro h0 hle htl
    have h1 : ¬ received ≤ 0 := by linarith
    have h2 : ¬ expected < received := by linarith
    simp [calculate_payment_status, h1, h2, htl]
  · intro h0 hlt
    have h1 : ¬ received ≤ 0 := by linarith
    have h2 : ¬ expected < received := by linarith
    have h3 : ¬ expected - get_tolerance ftp expected ≤ received := by linarith
    simp [calculate_payment_status, h1, h2, h3]
  · intro h
    simp [calculate_payment_status, h]

/-- Witness for C4 at tolerance percent 1, expected 100, received 50. -/
theorem c4_payment_status_table_witness :
    ((50 : ℚ) ≤ 0 → calculate_payment_status 1 100 50 = PaymentStatus.PENDING) ∧
    ((100 : ℚ) < 50 → calculate_payment_status 1 100 50 = PaymentStatus.OVERPAID) ∧
    ((0 : ℚ) < 50 → (50 : ℚ) ≤ 100 → (100 : ℚ) - get_tolerance 1 100 ≤ 50 →
      calculate_payment_status 1 100 50 = PaymentStatus.FULLY_PAID) ∧
    ((0 : ℚ) < 50 → (50 : ℚ) < 100 - get_tolerance 1 100 →
      calculate_payment_status 1 100 50 = PaymentStatus.PARTIALLY_PAID) ∧
    ((50 : ℚ) = 0 → calculate_payment_status 1 100 50 = PaymentStatus.PENDING) :=
  c4_payment_status_table 1 100 50 (by norm_num) (by norm_num)

/-! ### C2 and C3: the repository filter parameters and the Settings
fields the reconciler needs are missing from the code -/

/-- Payment record used to exhibit the unfiltered behavior of
JsonStorage.get_all_payments. -/
def c2_usd_payment : Payment :=
  { payment_id := "p1", reference := some "INV-1", expected_amount := 100,
    currency := "USD", payer_name := some "Alice", payer_email := none,
    due_date := none, description := none, status := PaymentStatus.PENDING,
    received_amount := 0, created_at := 0, updated_at := 0 }

/-- Payment record in a second currency for the same exhibit. -/
def c2_eur_payment : Payment :=
  { payment_id := "p2", reference := some "INV-2", expected_amount := 100,
    currency := "EUR", payer_name := some "Bob", payer_email := none,
    due_date := none, description := none, status := PaymentStatus.PENDING,
    received_amount := 0, created_at := 0, updated_at := 0 }

/-- Storage holding one USD and one EUR payment. -/
def c2_store : Storage :=
  { payments := [c2_usd_payment, c2_eur_payment], transactions := [], links := [], clock := 1 }

/-- C2: JsonStorage.get_all_payments as the repository defines it takes
no filters and returns both payments, while the filtered operation the
spec describes (and the reconciler calls) would return only the USD
one; the two disagree on a two-payment store, so the repository
operation the claim describes does not exist in src/app/storage.py. -/
theorem c2_get_all_payments_unfiltered :
    (get_all_payments c2_store).length = 2 ∧
    (get_all_payments_filtered c2_store (some "USD") none).length = 1 ∧
    (get_all_payments c2_store == get_all_payments_filtered c2_store (some "USD") none) = false := by
  refine ⟨rfl, ?_, ?_⟩ <;> decide

/-! ### Helper lemmas on the storage operations -/

/-- Lookup after a keyed map that does not change keys commutes with the
map. -/
theorem find?_map_key {α : Type} (key : α → String) (f : α → α)
    (hf : ∀ a, key (f a) = key a) (k : String) (l : List α) :
    (l.map f).find? (fun a => key a == k) = (l.find? (fun a => key a == k)).map f := by
  induction l with
  | nil => rfl
  | cons a t ih =>
    simp only [List.map_cons, List.find?_cons, hf a]
    cases h : (key a == k) <;> simp [h, ih]

/-- Overwriting one key's record preserves every key. -/
theorem key_replace_key {α : Type} (key : α → String) (x : α) (a : α) :
    key (if key a == key x then x else a) = key a := by
  split
  · next hcond => exact (beq_iff_eq.mp hcond).symm
  · rfl

/-- Lookup of the written key in the overwrite branch of a dict write. -/
theorem find?_replace_self {α : Type} (key : α → String) (l : List α) (x : α)
    (h : l.any (fun y => key y == key x) = true) :
    (l.map (fun y => if key y == key x then x else y)).find? (fun y => key y == key x) = some x := by
  rw [find?_map_key key _ (key_replace_key key x) (key x) l]
  obtain ⟨y, hy⟩ : ∃ y, l.find? (fun y => key y == key x) = some y := by
    rw [← Option.isSome_iff_exists, List.find?_isSome]
    simpa using h
  rw [hy]
  have hkey := List.find?_some (p := fun y => key y == key x) hy
  simp only [Option.map_some']
  simp [hkey]

/-- Lookup of an untouched key in the overwrite branch of a dict write. -/
theorem find?_replace_other {α : Type} (key : α → String) (l : List α) (x : α)
    (k : String) (hk : key x ≠ k) :
    (l.map (fun y => if key y == key x then x else y)).find? (fun y => key y == k) =
      l.find? (fun y => key y == k) := by
  rw [find?_map_key key _ (key_replace_key key x) k l]
  cases hfind : l.find? (fun y => key y == k) with
  | none => rfl
  | some y =>
    have hy : key y = k := by simpa using List.find?_some hfind
    have hne : ¬ key y = key x := by
      rw [hy]
      exact fun hh => hk hh.symm
    simp [hne]

/-- Lookup of the inserted record after a dict write finds it. -/
theorem find?_dict_insert_self {α : Type} (key : α → String) (l : List α) (x : α) :
    (dict_insert key l x).find? (fun y => key y == key x) = some x := by
  unfold dict_insert
  by_cases h : l.any (fun y => key y == key x)
  · simpa [h] using find?_replace_self key l x h
  · simp only [h, if_false, List.find?_append]
    have hnone : l.find? (fun y => key y == key x) = none := by
      rw [List.find?_eq_none]
      intro y hy
      have hb := (List.any_eq_false.mp (Bool.of_not_eq_true h)) y hy
      simpa using hb
    simp [hnone]

/-- Lookup of an untouched key after a dict write is unchanged. -/
theorem find?_dict_insert_other {α : Type} (key : α → String) (l : List α) (x : α)
    (k : String) (hk : key x ≠ k) :
    (dict_insert key l x).find? (fun y => key y == k) = l.find? (fun y => key y == k) := by
  unfold dict_insert
  by_cases h : l.any (fun y => key y == key x)
  · simpa [h] using find?_replace_other key l x k hk
  · simp only [h, if_false, List.find?_append]
    have h1 : (key x == k) = false := beq_eq_false_iff_ne.mpr hk
    cases hf : l.find? (fun y => key y == k) <;> simp [hf, h1]

/-- Payments are untouched by create_reconciliation_link. -/
theorem payments_create_link (s : Storage) (p : Payment) (t : Txn) (mt : MatchType) :
    (create_reconciliation_link s p t mt).payments = s.payments := rfl

/-- Transactions are untouched by update_payment. -/
theorem transactions_update_payment (s : Storage) (pid : String) (r : ℚ) (st : PaymentStatus) :
    (update_payment s pid r st).transactions = s.transactions := rfl

/-- Transactions are untouched by update_payment_received. -/
theorem transactions_update_payment_received (ftp : ℚ) (s : Storage) (pid : String) (a : ℚ) :
    (update_payment_received ftp s pid a).transactions = s.transactions := by
  unfold update_payment_received
  cases get_payment s pid <;> rfl

/-- Links are untouched by update_payment_received. -/
theorem links_update_payment_received (ftp : ℚ) (s : Storage) (pid : String) (a : ℚ) :
    (update_payment_received ftp s pid a).links = s.links := by
  unfold update_payment_received
  cases get_payment s pid <;> rfl

/-- Links after create_reconciliation_link: the one appended link. -/
theorem links_create_link (s : Storage) (p : Payment) (t : Txn) (mt : MatchType) :
    (create_reconciliation_link s p t mt).links = s.links ++
      [{ link_id := generate_id "link" (s.links.map Link.link_id),
         payment_id := p.payment_id, transaction_id := t.transaction_id,
         match_type := mt, amount := t.amount,
         notes := if t.amount < 0 then some "Refund" else none, created_at := s.clock }] := rfl

/-- Lookup after update_payment is the mapped lookup. -/
theorem get_payment_update_payment (s : Storage) (pid : String) (r : ℚ) (st : PaymentStatus)
    (k : String) :
    get_payment (update_payment s pid r st) k = (get_payment s k).map (fun p =>
      if p.payment_id == pid then
        { p with received_amount := r, status := st, updated_at := s.clock }
      else p) := by
  unfold get_payment update_payment
  apply find?_map_key
  intro a
  dsimp only []
  split <;> rfl

/-- Lookup after update_transaction is the mapped lookup. -/
theorem get_transaction_update_transaction (s : Storage) (tid pid : String) (k : String) :
    get_transaction (update_transaction s tid pid) k = (get_transaction s k).map (fun t =>
      if t.transaction_id == tid then
        { t with matched := true, matched_to_payment_id := some pid }
      else t) := by
  unfold get_transaction update_transaction
  apply find?_map_key
  intro a
  dsimp only []
  split <;> rfl

/-- Payment lookup presence is stable under update_payment_received. -/
theorem isSome_get_payment_upr (ftp : ℚ) (s : Storage) (pid : String) (a : ℚ) (k : String) :
    (get_payment (update_payment_received ftp s pid a) k).isSome = (get_payment s k).isSome := by
  unfold update_payment_received
  cases h : get_payment s pid with
  | none => rfl
  | some q => rw [get_payment_update_payment, Option.isSome_map']

/-- Payment lookup is stable under create_reconciliation_link. -/
theorem get_payment_create_link (s : Storage) (p : Payment) (t : Txn) (mt : MatchType)
    (k : String) :
    get_payment (create_reconciliation_link s p t mt) k = get_payment s k := rfl

/-- Transaction lookup presence is stable under the link-and-update pair
of a reconciler hit. -/
theorem isSome_get_transaction_link_step (ftp : ℚ) (s : Storage) (p : Payment) (t : Txn)
    (mt : MatchType) (k : String) :
    (get_transaction (update_payment_received ftp (create_reconciliation_link s p t mt)
        p.payment_id t.amount) k).isSome = (get_transaction s k).isSome := by
  unfold get_transaction
  rw [transactions_update_payment_received]
  show ((update_transaction _ t.transaction_id p.payment_id).transactions.find? _).isSome = _
  rw [show ∀ s2 tid pid, (update_transaction s2 tid pid).transactions.find?
        (fun x => x.transaction_id == k) = get_transaction (update_transaction s2 tid pid) k
      from fun _ _ _ => rfl]
  rw [get_transaction_update_transaction, Option.isSome_map']
  rfl

/-- Transaction lookup after a reconciler hit: the transaction whose id
matches is marked matched. -/
theorem get_transaction_link_step (ftp : ℚ) (s : Storage) (p : Payment) (t : Txn)
    (mt : MatchType) (k : String) :
    get_transaction (update_payment_received ftp (create_reconciliation_link s p t mt)
        p.payment_id t.amount) k =
      (get_transaction s k).map (fun t0 =>
        if t0.transaction_id == t.transaction_id then
          { t0 with matched := true, matched_to_payment_id := some p.payment_id }
        else t0) := by
  have h1 : get_transaction (update_payment_received ftp (create_reconciliation_link s p t mt)
      p.payment_id t.amount) k = get_transaction (create_reconciliation_link s p t mt) k := by
    unfold get_transaction
    rw [transactions_update_payment_received]
  rw [h1]
  show get_transaction (update_transaction
    (add_reconciliation_link s p.payment_id t.transaction_id mt t.amount
      (if t.amount < 0 then some "Refund" else none)) t.transaction_id p.payment_id) k = _
  rw [get_transaction_update_transaction]
  rfl

/-- Payment lookup presence is stable across the payment reconciler
loop. -/
theorem isSome_get_payment_loop (ftp : ℚ) (p : Payment) (ts : List Txn) :
    ∀ (s : Storage) (count : Nat) (k : String),
      (get_payment (payment_reconciler_loop ftp p ts s count).1 k).isSome =
        (get_payment s k).isSome := by
  induction ts with
  | nil => intro s count k; rfl
  | cons t rest ih =>
    intro s count k
    unfold payment_reconciler_loop
    by_cases hc : (t.currency == p.currency) = true
    · simp only [hc, if_true]
      cases hm : check_match ftp s p t with
      | none => exact ih s count k
      | some mt =>
        simp only []
        rw [ih _ _ k, isSome_get_payment_upr]
        rw [show get_payment (create_reconciliation_link s p t mt) k = get_payment s k from rfl]
    · have hc' : (t.currency == p.currency) = false := by simpa using hc
      simp only [hc', Bool.false_eq_true, if_false]
      exact ih s count k

/-- Lookup of the freshly stored record after add_payment. -/
theorem get_payment_add_payment_self (s : Storage) (pin : PaymentIn) :
    get_payment (add_payment s pin).1 (add_payment s pin).2.payment_id =
      some (add_payment s pin).2 := by
  unfold get_payment add_payment
  exact find?_dict_insert_self Payment.payment_id s.payments _

/-- With a non-blank payment_id, add_payment keys the record by it. -/
theorem payment_id_add_payment (s : Storage) (pin : PaymentIn) (h : pin.payment_id ≠ "") :
    (add_payment s pin).2.payment_id = pin.payment_id := by
  unfold add_payment
  simp [beq_eq_false_iff_ne.mpr h]

/-- Lookup of the freshly stored record after add_transaction. -/
theorem get_transaction_add_transaction_self (s : Storage) (tin : TxnIn) :
    get_transaction (add_transaction s tin).1 (add_transaction s tin).2.transaction_id =
      some (add_transaction s tin).2 := by
  unfold get_transaction add_transaction
  exact find?_dict_insert_self Txn.transaction_id s.transactions _

/-- With a non-blank transaction_id, add_transaction keys the record by
it. -/
theorem transaction_id_add_transaction (s : Storage) (tin : TxnIn)
    (h : tin.transaction_id ≠ "") :
    (add_transaction s tin).2.transaction_id = tin.transaction_id := by
  unfold add_transaction
  simp [beq_eq_false_iff_ne.mpr h]

/-- Presence of the stored payment after add_payment with a non-blank
id. -/
theorem isSome_get_payment_add (s : Storage) (pin : PaymentIn) (h : pin.payment_id ≠ "") :
    (get_payment (add_payment s pin).1 pin.payment_id).isSome = true := by
  have hpid := payment_id_add_payment s pin h
  conv_lhs => rw [← hpid]
  rw [get_payment_add_payment_self]
  rfl

/-- Presence of the stored transaction after add_transaction with a
non-blank id. -/
theorem isSome_get_transaction_add (s : Storage) (tin : TxnIn) (h : tin.transaction_id ≠ "") :
    (get_transaction (add_transaction s tin).1 tin.transaction_id).isSome = true := by
  have htid := transaction_id_add_transaction s tin h
  conv_lhs => rw [← htid]
  rw [get_transaction_add_transaction_self]
  rfl

/-- Records under other keys survive a dict write. -/
theorem mem_dict_insert_other {α : Type} (key : α → String) (l : List α) (x : α)
    (q : α) (hq : q ∈ l) (hne : key q ≠ key x) : q ∈ dict_insert key l x := by
  unfold dict_insert
  split
  · have hfix : (if key q == key x then x else q) = q := by
      simp [beq_eq_false_iff_ne.mpr hne]
    have hm := List.mem_map_of_mem (fun y => if key y == key x then x else y) hq
    simpa only [hfix] using hm
  · exact List.mem_append_left _ hq

/-- C3: the Settings dataclass of src/app/config.py defines neither the
fee_tolerance_percent field that get_tolerance reads on every tolerance
evaluation nor the webhook_rate_limit field the webhook routes read, so
those reads fail instead of returning a configured value. -/
theorem c3_settings_missing_fields :
    (settingsFields.contains "fee_tolerance_percent") = false ∧
    (settingsFields.contains "webhook_rate_limit") = false := by
  decide

/-! ### C9: add_payment on an existing id -/

/-- Stored payment record with accumulated derived state, for the C9
counterexample. -/
def c9_stored : Payment :=
  { payment_id := "p1", reference := some "INV-9", expected_amount := 500,
    currency := "USD", payer_name := some "Carol", payer_email := none,
    due_date := none, description := none, status := PaymentStatus.FULLY_PAID,
    received_amount := 500, created_at := 0, updated_at := 3 }

/-- Storage already holding c9_stored. -/
def c9_store : Storage :=
  { payments := [c9_stored], transactions := [], links := [], clock := 7 }

/-- The same payment posted again with the same payment_id. -/
def c9_pin : PaymentIn :=
  { payment_id := "p1", reference := some "INV-9", expected_amount := 500,
    currency := some "USD", payer_name := some "Carol", payer_email := none,
    due_date := none, description := none }

/-- C9 counterexample: add_payment on an id that already exists neither
returns the existing stored payment nor leaves it unchanged — the
stored record's received_amount is reset to 0 (and its status to
PENDING, its created_at to the current clock). -/
theorem c9_add_payment_overwrite_counterexample :
    ((add_payment c9_store c9_pin).2 == c9_stored) = false ∧
    (get_payment (add_payment c9_store c9_pin).1 "p1" == some c9_stored) = false ∧
    (get_payment (add_payment c9_store c9_pin).1 "p1").map Payment.received_amount = some 0 ∧
    (get_payment (add_payment c9_store c9_pin).1 "p1").map Payment.status =
      some PaymentStatus.PENDING := by
  refine ⟨?_, ?_, ?_, ?_⟩ <;> decide

/-- C9 amended: add_payment never returns an existing record; for every
input with a non-blank id it builds a fresh record with received_amount
0, status PENDING and created_at the current clock, stores it under the
given id (overwriting in place any record with that id), and leaves
payments under other ids in the table. -/
theorem c9_add_payment_stores_fresh_record (s : Storage) (pin : PaymentIn)
    (h : pin.payment_id ≠ "") :
    (add_payment s pin).2.received_amount = 0 ∧
    (add_payment s pin).2.status = PaymentStatus.PENDING ∧
    (add_payment s pin).2.created_at = s.clock ∧
    get_payment (add_payment s pin).1 pin.payment_id = some (add_payment s pin).2 ∧
    (∀ q ∈ s.payments, q.payment_id ≠ pin.payment_id → q ∈ (add_payment s pin).1.payments) := by
  refine ⟨rfl, rfl, rfl, ?_, ?_⟩
  · have hkey := payment_id_add_payment s pin h
    rw [← hkey]
    exact get_payment_add_payment_self s pin
  · intro q hq hne
    have hkey := payment_id_add_payment s pin h
    show q ∈ dict_insert Payment.payment_id s.payments (add_payment s pin).2
    exact mem_dict_insert_other Payment.payment_id s.payments _ q hq (by rw [hkey]; exact hne)

/-- Witness for C9's amended theorem at a concrete fresh input. -/
theorem c9_add_payment_stores_fresh_record_witness :
    (add_payment c9_store c9_pin).2.received_amount = 0 :=
  (c9_add_payment_stores_fresh_record c9_store c9_pin (by decide)).1

/-! ### C5: idempotent ingest -/

/-- Payment webhook payload with a blank primary key. -/
def c5_blank_payload : PaymentCreateWebhookIn :=
  { payment_id := "", reference := "R-1", expected_amount := 10,
    currency := "USD", payer_name := "Zed", payer_email := "z@x",
    due_date := "2024-01-01", description := none }

/-- C5 counterexample: the same payment.created webhook ingested twice
leaves two payment records when its payment_id is the empty string (the
falsy key bypasses the idempotency guard and add_payment keys the
record under a generated id), so ingesting the same webhook N times is
not always the state of ingesting it once. -/
theorem c5_blank_key_not_idempotent :
    (run 1 [Event.payment c5_blank_payload, Event.payment c5_blank_payload]).payments.length = 2 ∧
    (run 1 [Event.payment c5_blank_payload]).payments.length = 1 := by
  refine ⟨?_, ?_⟩ <;> decide

/-- Primary key of an event: payment_id for payment.created,
transaction_id for transaction.settled. -/
def event_key : Event → String
  | Event.payment e => e.payment_id
  | Event.txn e => e.transaction_id

/-- C5 amended: for every event whose primary key is non-blank, if the
key already exists the processor short-circuits with no state change,
and therefore re-ingesting the same webhook is the identity on the
repository state: N ingests end in the state of one. -/
theorem c5_ingest_idempotent_nonblank (ftp : ℚ) (s : Storage) (e : Event)
    (h : event_key e ≠ "") :
    ingest ftp (ingest ftp s e) e = ingest ftp s e := by
  cases e with
  | payment pe =>
    have h' : pe.payment_id ≠ "" := h
    have hshort : ∀ s2 : Storage, (get_payment s2 pe.payment_id).isSome = true →
        process_payment_webhook ftp s2 pe = s2 := by
      intro s2 hs
      unfold process_payment_webhook
      simp [hs]
    show process_payment_webhook ftp (process_payment_webhook ftp s pe) pe =
      process_payment_webhook ftp s pe
    by_cases hg : (get_payment s pe.payment_id).isSome = true
    · rw [hshort s hg, hshort s hg]
    · have hg' : (get_payment s pe.payment_id).isSome = false := by
        simpa using hg
      have hkey : (get_payment (process_payment_webhook ftp s pe) pe.payment_id).isSome = true := by
        unfold process_payment_webhook
        rw [hg']
        simp only [Bool.false_eq_true, if_false]
        rw [payment_reconciler, isSome_get_payment_loop]
        exact isSome_get_payment_add s
          { payment_id := pe.payment_id, reference := some pe.reference,
            expected_amount := pe.expected_amount, currency := some pe.currency,
            payer_name := some pe.payer_name, payer_email := some pe.payer_email,
            due_date := some pe.due_date, description := pe.description } h'
      rw [hshort _ hkey]
  | txn te =>
    have h' : te.transaction_id ≠ "" := h
    have hshort : ∀ s2 : Storage, (get_transaction s2 te.transaction_id).isSome = true →
        (process_transaction_webhook ftp s2 te).1 = s2 := by
      intro s2 hs
      unfold process_transaction_webhook
      simp [hs]
    show (process_transaction_webhook ftp (process_transaction_webhook ftp s te).1 te).1 =
      (process_transaction_webhook ftp s te).1
    by_cases hg : (get_transaction s te.transaction_id).isSome = true
    · rw [hshort s hg, hshort s hg]
    · have hg' : (get_transaction s te.transaction_id).isSome = false := by
        simpa using hg
      have hkey : (get_transaction (process_transaction_webhook ftp s te).1
          te.transaction_id).isSome = true := by
        unfold process_transaction_webhook
        rw [hg']
        simp only [Bool.false_eq_true, if_false]
        have hbase : (get_transaction (add_transaction s
            { transaction_id := te.transaction_id, reference := te.reference,
              amount := te.amount, currency := some te.currency,
              payer_name := some te.payer_name,
              payer_account_last_four := some te.payer_account_last_four,
              settled_at := some te.settled_at,
              bank_reference := some te.bank_reference }).1 te.transaction_id).isSome = true :=
          isSome_get_transaction_add s _ h'
        unfold transaction_reconciler
        cases hf : find_payment ftp (add_transaction s _).1 (add_transaction s _).2 with
        | none => exact hbase
        | some pm =>
          simp only []
          rw [isSome_get_transaction_link_step]
          exact hbase
      rw [hshort _ hkey]

/-! ### C7: the refund-by-payer rule -/

/-- A link qualifies for the refund rule on transaction t when its
payment exists, has t's currency, and its payer matches t's payer. -/
def refund_link_ok (s : Storage) (t : Txn) (l : Link) : Bool :=
  match get_payment s l.payment_id with
  | none => false
  | some p => p.currency == t.currency && payer_matches t.payer_name p.payer_name

/-- The source's refund scan returns the payment of the earliest
recorded qualifying link. -/
theorem match_refund_eq_find (s : Storage) (t : Txn) :
    match_refund_by_payer s t =
      (s.links.find? (refund_link_ok s t)).bind
        (fun l => (get_payment s l.payment_id).map (fun p => (p, MatchType.EXACT))) := by
  unfold match_refund_by_payer
  by_cases hb : is_blank t.payer_name = true
  · have hall : s.links.find? (refund_link_ok s t) = none := by
      rw [List.find?_eq_none]
      intro l _
      unfold refund_link_ok
      cases get_payment s l.payment_id with
      | none => simp
      | some p =>
        have : payer_matches t.payer_name p.payer_name = false := by
          unfold payer_matches
          simp [hb]
        simp [this]
    simp [hb, hall]
  · have hb' : is_blank t.payer_name = false := by simpa using hb
    simp only [hb', Bool.false_eq_true, if_false]
    induction s.links with
    | nil => simp
    | cons l ls ih =>
      rw [List.findSome?_cons, List.find?_cons]
      cases hgp : get_payment s l.payment_id with
      | none =>
        have hok : refund_link_ok s t l = false := by unfold refund_link_ok; rw [hgp]
        rw [hok]
        simpa [hgp] using ih
      | some p =>
        by_cases hcond : (p.currency == t.currency && payer_matches t.payer_name p.payer_name) = true
        · have hok : refund_link_ok s t l = true := by unfold refund_link_ok; rw [hgp]; exact hcond
          rw [hok]
          simp [hgp, hcond]
        · have hcond' : (p.currency == t.currency && payer_matches t.payer_name p.payer_name) = false := by
            simpa using hcond
          have hok : refund_link_ok s t l = false := by unfold refund_link_ok; rw [hgp]; exact hcond'
          rw [hok]
          simpa [hgp, hcond'] using ih

/-- Observable content of a link record apart from the generated
link_id and timestamp. -/
def link_data (l : Link) : String × String × MatchType × ℚ × Option String :=
  (l.payment_id, l.transaction_id, l.match_type, l.amount, l.notes)

/-- C7: for a newly ingested transaction with negative amount on which
the reference rule and the payer+amount rule both fail, the transaction
reconciler links the transaction to the payment of the earliest
recorded link whose payment exists, matches the currency and whose
payer matches: it returns true, appends exactly one link with match
type EXACT, the transaction's (negative) amount and notes "Refund",
marks the transaction matched to that payment, and decreases the
payment's received_amount by the absolute transaction amount with the
status recomputed. -/
theorem c7_refund_by_payer (ftp : ℚ) (s : Storage) (t : Txn) (l0 : Link) (p : Payment)
    (hneg : t.amount < 0)
    (href : match_by_reference s t = none)
    (hpa : is_blank t.reference = true → match_by_payer_amount ftp s t = none)
    (hfound : s.links.find? (refund_link_ok s t) = some l0)
    (hp : get_payment s l0.payment_id = some p) :
    (transaction_reconciler ftp s t).2 = true ∧
    (transaction_reconciler ftp s t).1.links.map link_data =
      s.links.map link_data ++
        [(p.payment_id, t.transaction_id, MatchType.EXACT, t.amount, some "Refund")] ∧
    (get_payment (transaction_reconciler ftp s t).1 p.payment_id).map
        (fun q => (q.received_amount, q.status)) =
      some (p.received_amount - |t.amount|,
        calculate_payment_status ftp p.expected_amount (p.received_amount - |t.amount|)) ∧
    get_transaction (transaction_reconciler ftp s t).1 t.transaction_id =
      (get_transaction s t.transaction_id).map
        (fun t0 => { t0 with matched := true, matched_to_payment_id := some p.payment_id }) := by
  have habs : p.received_amount - |t.amount| = p.received_amount + t.amount := by
    rw [abs_of_neg hneg]; ring
  have hmr : match_refund_by_payer s t = some (p, MatchType.EXACT) := by
    rw [match_refund_eq_find, hfound]
    simp [hp]
  have hfp : find_payment ftp s t = some (p, MatchType.EXACT) := by
    unfold find_payment
    rw [href]
    cases hbr : is_blank t.reference with
    | true => rw [hpa hbr]; simp [if_pos hneg, hmr]
    | false => simp [if_pos hneg, hmr]
  have hpfind : s.payments.find? (fun q => q.payment_id == l0.payment_id) = some p := hp
  have hpid : p.payment_id = l0.payment_id := by
    simpa using List.find?_some hpfind
  have hps : get_payment s p.payment_id = some p := by rw [hpid]; exact hp
  have hstep : transaction_reconciler ftp s t =
      (update_payment_received ftp (create_reconciliation_link s p t MatchType.EXACT)
        p.payment_id t.amount, true) := by
    unfold transaction_reconciler
    rw [hfp]
  have hs1ps : get_payment (create_reconciliation_link s p t MatchType.EXACT) p.payment_id =
      some p := hps
  refine ⟨by rw [hstep], ?_, ?_, ?_⟩
  · rw [hstep]
    show (update_payment_received ftp (create_reconciliation_link s p t MatchType.EXACT)
        p.payment_id t.amount).links.map link_data = _
    rw [links_update_payment_received, links_create_link, List.map_append]
    simp [link_data, if_pos hneg]
  · rw [hstep]
    show (get_payment (update_payment_received ftp
        (create_reconciliation_link s p t MatchType.EXACT) p.payment_id t.amount)
        p.payment_id).map _ = _
    unfold update_payment_received
    rw [hs1ps]
    simp only []
    rw [get_payment_update_payment, hs1ps]
    simp [habs]
  · rw [hstep]
    show get_transaction (update_payment_received ftp
        (create_reconciliation_link s p t MatchType.EXACT) p.payment_id t.amount)
        t.transaction_id = _
    rw [get_transaction_link_step]
    cases hgt : get_transaction s t.transaction_id with
    | none => rfl
    | some t0 =>
      have hgt2 : s.transactions.find? (fun x => x.transaction_id == t.transaction_id) =
          some t0 := hgt
      have ht0 : (t0.transaction_id == t.transaction_id) = true := by
        have hq := List.find?_some hgt2
        simpa using hq
      simp only [Option.map_some', ht0, if_true]

/-- Fully paid payment of the refund exhibit. -/
def c7_pay : Payment :=
  { payment_id := "P1", reference := some "INV-1", expected_amount := 1000,
    currency := "USD", payer_name := some "Alice", payer_email := some "a@x",
    due_date := some "d", description := none, status := PaymentStatus.FULLY_PAID,
    received_amount := 1000, created_at := 0, updated_at := 3 }

/-- Earlier matched transaction of the refund exhibit. -/
def c7_t1 : Txn :=
  { transaction_id := "T1", reference := some "INV-1", amount := 1000,
    currency := "USD", payer_name := some "Alice", payer_account_last_four := some "1",
    settled_at := some "s", bank_reference := some "b", matched := true,
    matched_to_payment_id := some "P1", created_at := 1 }

/-- Existing link of the refund exhibit. -/
def c7_link : Link :=
  { link_id := "L1", payment_id := "P1", transaction_id := "T1",
    match_type := MatchType.EXACT, amount := 1000, notes := none, created_at := 2 }

/-- Newly stored refund transaction: negative amount, no reference,
payer a case-insensitive superstring of the payment's payer. -/
def c7_refund : Txn :=
  { transaction_id := "T2", reference := none, amount := -1000,
    currency := "USD", payer_name := some "alice inc", payer_account_last_four := some "2",
    settled_at := some "s2", bank_reference := some "b2", matched := false,
    matched_to_payment_id := none, created_at := 4 }

/-- Storage of the refund exhibit. -/
def c7_store : Storage :=
  { payments := [c7_pay], transactions := [c7_t1, c7_refund], links := [c7_link], clock := 5 }

/-- Witness for C7 on the concrete refund exhibit. -/
theorem c7_refund_by_payer_witness :
    (transaction_reconciler 1 c7_store c7_refund).2 = true :=
  (c7_refund_by_payer 1 c7_store c7_refund c7_link c7_pay (by decide) (by decide)
    (by decide) (by decide) (by decide)).1

/-! ### C1 groundwork: sums over links, fresh ids, keyed lookups -/

/-- Appending one link shifts a payment's signed sum by that link's
amount when it references the payment. -/
theorem links_sum_append (ls : List Link) (l : Link) (pid : String) :
    links_sum (ls ++ [l]) pid =
      links_sum ls pid + (if l.payment_id == pid then l.amount else 0) := by
  unfold links_sum
  rw [List.filter_append]
  cases h : (l.payment_id == pid) with
  | true =>
    simp only [List.filter_cons, h, if_true, List.filter_nil]
    rw [List.map_append, List.sum_append]
    simp
  | false =>
    simp only [List.filter_cons, h, Bool.false_eq_true, if_false, List.filter_nil,
      List.append_nil]
    simp

/-- The signed sum over links that never reference the payment is 0. -/
theorem links_sum_zero (ls : List Link) (pid : String)
    (h : ∀ l ∈ ls, l.payment_id ≠ pid) : links_sum ls pid = 0 := by
  unfold links_sum
  have : ls.filter (fun l => l.payment_id == pid) = [] := by
    rw [List.filter_eq_nil_iff]
    intro l hl
    simpa using h l hl
  rw [this]
  rfl

/-- Every member is bounded by the maximal length. -/
theorem length_le_max_length (l : List String) (u : String) (hu : u ∈ l) :
    u.length ≤ max_length l := by
  induction l with
  | nil => cases hu
  | cons a t ih =>
    unfold max_length
    rcases List.mem_cons.mp hu with h | h
    · subst h
      simp [List.foldr]
    · have := ih h
      unfold max_length at this
      simp only [List.foldr]
      omega

/-- A generated id is absent from the table it was generated against. -/
theorem generate_id_not_mem (tag : String) (used : List String) :
    generate_id tag used ∉ used := by
  intro hmem
  have hle := length_le_max_length used _ hmem
  have hlen : (generate_id tag used).length = tag.length + (max_length used + 1) := by
    unfold generate_id
    rw [String.length_append]
    congr 1
    show (List.replicate (max_length used + 1) '_').length = max_length used + 1
    exact List.length_replicate _ _
  omega

/-- Keyed lookup of a member under distinct keys finds that member. -/
theorem find?_eq_of_mem_nodup {α : Type} (key : α → String) (l : List α) (x : α)
    (hx : x ∈ l) (hnd : (l.map key).Nodup) : l.find? (fun y => key y == key x) = some x := by
  induction l with
  | nil => cases hx
  | cons a t ih =>
    rw [List.map_cons, List.nodup_cons] at hnd
    rw [List.find?_cons]
    rcases List.mem_cons.mp hx with h | h
    · subst h
      simp
    · have hne : (key a == key x) = false := by
        refine beq_eq_false_iff_ne.mpr ?_
        intro heq
        exact hnd.1 (heq ▸ List.mem_map_of_mem key h)
      rw [hne]
      exact ih h hnd.2

/-- Two members with the same key coincide under distinct keys. -/
theorem eq_of_key_eq_nodup {α : Type} (key : α → String) (l : List α) (x y : α)
    (hx : x ∈ l) (hy : y ∈ l) (hk : key x = key y)
    (hnd : (l.map key).Nodup) : x = y := by
  have h1 := find?_eq_of_mem_nodup key l x hx hnd
  have h2 := find?_eq_of_mem_nodup key l y hy hnd
  rw [hk] at h1
  rw [h1] at h2
  exact Option.some_injective _ h2

/-- Any result of findSome? comes from a member. -/
theorem findSome?_mem {α β : Type} (f : α → Option β) (l : List α) (b : β)
    (h : l.findSome? f = some b) : ∃ a ∈ l, f a = some b := by
  induction l with
  | nil => simp at h
  | cons a t ih =>
    rw [List.findSome?_cons] at h
    cases hf : f a with
    | some c =>
      rw [hf] at h
      exact ⟨a, List.mem_cons_self a t, by rw [hf]; exact h⟩
    | none =>
      rw [hf] at h
      obtain ⟨x, hx, hfx⟩ := ih h
      exact ⟨x, List.mem_cons_of_mem a hx, hfx⟩

/-- A dict write under a fresh key appends. -/
theorem dict_insert_append {α : Type} (key : α → String) (l : List α) (x : α)
    (h : key x ∉ l.map key) : dict_insert key l x = l ++ [x] := by
  unfold dict_insert
  rw [if_neg]
  intro hany
  obtain ⟨y, hy, hky⟩ := List.any_eq_true.mp hany
  exact h (beq_iff_eq.mp hky ▸ List.mem_map_of_mem key hy)

/-- Payment ids are unchanged by update_payment. -/
theorem ids_update_payment (s : Storage) (pid : String) (r : ℚ) (st : PaymentStatus) :
    (update_payment s pid r st).payments.map Payment.payment_id =
      s.payments.map Payment.payment_id := by
  show (s.payments.map _).map Payment.payment_id = _
  rw [List.map_map]
  apply List.map_congr_left
  intro a _
  show Payment.payment_id (if a.payment_id == pid then _ else a) = a.payment_id
  split <;> rfl

/-- Inductive invariant of the repository: payment ids are distinct,
every link references a stored payment, and every payment's derived
state matches its links (invariants 3 and 4 of the spec, strengthened
by the key-uniqueness and referential facts needed to push them through
the reconcilers). -/
def StrongInv (ftp : ℚ) (s : Storage) : Prop :=
  (s.payments.map Payment.payment_id).Nodup ∧
  (∀ l ∈ s.links, l.payment_id ∈ s.payments.map Payment.payment_id) ∧
  (∀ p ∈ s.payments,
    p.received_amount = links_sum s.links p.payment_id ∧
    p.status = calculate_payment_status ftp p.expected_amount p.received_amount)

/-- The link-then-update pair of a reconciler hit preserves the
invariant, for any stored payment id. -/
theorem strong_inv_link_step (ftp : ℚ) (s : Storage) (p : Payment) (t : Txn) (mt : MatchType)
    (hinv : StrongInv ftp s) (hpid : p.payment_id ∈ s.payments.map Payment.payment_id) :
    StrongInv ftp (update_payment_received ftp (create_reconciliation_link s p t mt)
      p.payment_id t.amount) := by
  obtain ⟨hnd, href, hsum⟩ := hinv
  obtain ⟨q, hq, hqid⟩ := List.mem_map.mp hpid
  have hgq : get_payment s p.payment_id = some q := by
    have hf := find?_eq_of_mem_nodup Payment.payment_id s.payments q hq hnd
    show s.payments.find? (fun y => y.payment_id == p.payment_id) = some q
    rw [← hqid]
    exact hf
  have hgq1 : get_payment (create_reconciliation_link s p t mt) p.payment_id = some q := hgq
  set l : Link :=
    { link_id := generate_id "link" (s.links.map Link.link_id),
      payment_id := p.payment_id, transaction_id := t.transaction_id,
      match_type := mt, amount := t.amount,
      notes := if t.amount < 0 then some "Refund" else none, created_at := s.clock } with hl
  have hstep : update_payment_received ftp (create_reconciliation_link s p t mt)
      p.payment_id t.amount =
      update_payment (create_reconciliation_link s p t mt) p.payment_id
        (q.received_amount + t.amount)
        (calculate_payment_status ftp q.expected_amount (q.received_amount + t.amount)) := by
    unfold update_payment_received
    rw [hgq1]
  rw [hstep]
  have hpay : (update_payment (create_reconciliation_link s p t mt) p.payment_id
      (q.received_amount + t.amount)
      (calculate_payment_status ftp q.expected_amount (q.received_amount + t.amount))).payments =
      s.payments.map (fun r =>
        if r.payment_id == p.payment_id then
          { r with received_amount := q.received_amount + t.amount,
                   status := calculate_payment_status ftp q.expected_amount
                     (q.received_amount + t.amount),
                   updated_at := (create_reconciliation_link s p t mt).clock }
        else r) := rfl
  have hlinks : (update_payment (create_reconciliation_link s p t mt) p.payment_id
      (q.received_amount + t.amount)
      (calculate_payment_status ftp q.expected_amount (q.received_amount + t.amount))).links =
      s.links ++ [l] := rfl
  have hids : ∀ (r : Payment), Payment.payment_id (if r.payment_id == p.payment_id then
      { r with received_amount := q.received_amount + t.amount,
               status := calculate_payment_status ftp q.expected_amount
                 (q.received_amount + t.amount),
               updated_at := (create_reconciliation_link s p t mt).clock }
      else r) = r.payment_id := by
    intro r
    split <;> rfl
  have hmapids : ((update_payment (create_reconciliation_link s p t mt) p.payment_id
      (q.received_amount + t.amount)
      (calculate_payment_status ftp q.expected_amount (q.received_amount + t.amount))).payments.map
        Payment.payment_id) = s.payments.map Payment.payment_id := by
    rw [hpay, List.map_map]
    apply List.map_congr_left
    intro r _
    exact hids r
  refine ⟨by rw [hmapids]; exact hnd, ?_, ?_⟩
  · intro l2 hl2
    rw [hmapids]
    rw [hlinks] at hl2
    rcases List.mem_append.mp hl2 with h | h
    · exact href l2 h
    · have : l2 = l := List.mem_singleton.mp h
      rw [this]
      exact hpid
  · intro r2 hr2
    rw [hpay] at hr2
    obtain ⟨r, hr, hrr⟩ := List.mem_map.mp hr2
    rw [hlinks]
    by_cases hcase : r.payment_id = p.payment_id
    · have hbeq : (r.payment_id == p.payment_id) = true := beq_iff_eq.mpr hcase
      have hrq : r = q :=
        eq_of_key_eq_nodup Payment.payment_id s.payments r q hr hq (by rw [hcase, hqid]) hnd
      rw [← hrr]
      simp only [hbeq, if_true]
      constructor
      · show q.received_amount + t.amount = links_sum (s.links ++ [l]) r.payment_id
        rw [links_sum_append]
        have hlid : (l.payment_id == r.payment_id) = true := by
          rw [hl]
          exact beq_iff_eq.mpr hcase.symm
        rw [hlid, if_pos rfl]
        have hqs := (hsum q hq).1
        rw [hrq, hqs]
      · show calculate_payment_status ftp q.expected_amount (q.received_amount + t.amount) =
          calculate_payment_status ftp r.expected_amount (q.received_amount + t.amount)
        rw [hrq]
    · have hbeq : (r.payment_id == p.payment_id) = false := beq_eq_false_iff_ne.mpr hcase
      rw [← hrr]
      simp only [hbeq, Bool.false_eq_true, if_false]
      constructor
      · rw [links_sum_append]
        have hlid : (l.payment_id == r.payment_id) = false := by
          rw [hl]
          exact beq_eq_false_iff_ne.mpr (fun hh => hcase hh.symm)
        rw [hlid]
        simp only [Bool.false_eq_true, if_false, add_zero]
        exact (hsum r hr).1
      · exact (hsum r hr).2

/-- Payment ids are unchanged by update_payment_received. -/
theorem ids_upr (ftp : ℚ) (s : Storage) (pid : String) (amt : ℚ) :
    (update_payment_received ftp s pid amt).payments.map Payment.payment_id =
      s.payments.map Payment.payment_id := by
  unfold update_payment_received
  cases h : get_payment s pid with
  | none => rfl
  | some q => rw [ids_update_payment]

/-- Payment ids are unchanged by the link-then-update pair. -/
theorem ids_link_step (ftp : ℚ) (s : Storage) (p : Payment) (t : Txn) (mt : MatchType)
    (pid : String) (amt : ℚ) :
    (update_payment_received ftp (create_reconciliation_link s p t mt) pid amt).payments.map
      Payment.payment_id = s.payments.map Payment.payment_id := by
  rw [ids_upr]
  rfl

/-- StrongInv is untouched by add_transaction (payments and links are
unchanged). -/
theorem strong_inv_add_transaction (ftp : ℚ) (s : Storage) (tin : TxnIn)
    (h : StrongInv ftp s) : StrongInv ftp (add_transaction s tin).1 := h

/-- StrongInv is preserved across the payment reconciler loop whenever
the payment id being credited is stored. -/
theorem strong_inv_loop (ftp : ℚ) (p : Payment) (ts : List Txn) :
    ∀ (s : Storage) (c : Nat), StrongInv ftp s →
      p.payment_id ∈ s.payments.map Payment.payment_id →
      StrongInv ftp (payment_reconciler_loop ftp p ts s c).1 := by
  induction ts with
  | nil => intro s c h _; exact h
  | cons t rest ih =>
    intro s c h hpid
    unfold payment_reconciler_loop
    by_cases hc : (t.currency == p.currency) = true
    · simp only [hc, if_true]
      cases hm : check_match ftp s p t with
      | none => exact ih s c h hpid
      | some mt =>
        simp only []
        refine ih _ _ (strong_inv_link_step ftp s p t mt h hpid) ?_
        rw [ids_link_step]
        exact hpid
    · have hc' : (t.currency == p.currency) = false := by simpa using hc
      simp only [hc', Bool.false_eq_true, if_false]
      exact ih s c h hpid

/-- A reference-rule hit is a stored payment. -/
theorem match_by_reference_mem (s : Storage) (t : Txn) (p : Payment) (mt : MatchType)
    (h : match_by_reference s t = some (p, mt)) : p ∈ s.payments := by
  unfold match_by_reference at h
  by_cases hb : is_blank t.reference = true
  · rw [if_pos hb] at h; cases h
  · rw [if_neg hb] at h
    obtain ⟨a, ha, hfa⟩ := findSome?_mem _ _ _ h
    have hmem : a ∈ s.payments := (List.mem_filter.mp ha).1
    cases hmr : match_reference t.reference a.reference with
    | some mt2 =>
      rw [hmr] at hfa
      cases hfa
      exact hmem
    | none => rw [hmr] at hfa; cases hfa

/-- A payer+amount hit is a stored payment. -/
theorem match_by_payer_amount_mem (ftp : ℚ) (s : Storage) (t : Txn) (p : Payment)
    (mt : MatchType) (h : match_by_payer_amount ftp s t = some (p, mt)) : p ∈ s.payments := by
  unfold match_by_payer_amount at h
  by_cases hb : is_blank t.payer_name = true
  · rw [if_pos hb] at h; cases h
  · rw [if_neg hb] at h
    obtain ⟨a, ha, hfa⟩ := findSome?_mem _ _ _ h
    have hmem : a ∈ s.payments := (List.mem_filter.mp ha).1
    by_cases hcond : (payer_matches t.payer_name a.payer_name &&
        amount_matches_remaining ftp |t.amount| a) = true
    · rw [if_pos hcond] at hfa
      cases hfa
      exact hmem
    · rw [if_neg hcond] at hfa; cases hfa

/-- A refund-rule hit is a stored payment. -/
theorem match_refund_by_payer_mem (s : Storage) (t : Txn) (p : Payment) (mt : MatchType)
    (h : match_refund_by_payer s t = some (p, mt)) : p ∈ s.payments := by
  unfold match_refund_by_payer at h
  by_cases hb : is_blank t.payer_name = true
  · rw [if_pos hb] at h; cases h
  · rw [if_neg hb] at h
    obtain ⟨l, _, hfl⟩ := findSome?_mem _ _ _ h
    cases hgp : get_payment s l.payment_id with
    | none => rw [hgp] at hfl; cases hfl
    | some q =>
      rw [hgp] at hfl
      have hfl2 : (if (q.currency == t.currency && payer_matches t.payer_name q.payer_name) = true
          then some (q, MatchType.EXACT) else none) = some (p, mt) := hfl
      by_cases hcond : (q.currency == t.currency && payer_matches t.payer_name q.payer_name) = true
      · rw [if_pos hcond] at hfl2
        cases hfl2
        exact List.mem_of_find?_eq_some hgp
      · rw [if_neg hcond] at hfl2; cases hfl2

/-- Any payment the transaction reconciler links to is stored. -/
theorem find_payment_mem (ftp : ℚ) (s : Storage) (t : Txn) (p : Payment) (mt : MatchType)
    (h : find_payment ftp s t = some (p, mt)) : p ∈ s.payments := by
  unfold find_payment at h
  cases h1 : match_by_reference s t with
  | some m =>
    rw [h1] at h
    cases h
    exact match_by_reference_mem s t p mt h1
  | none =>
    rw [h1] at h
    cases h2 : (if is_blank t.reference then match_by_payer_amount ftp s t else none) with
    | some m =>
      rw [h2] at h
      cases h
      by_cases hb : is_blank t.reference = true
      · rw [if_pos hb] at h2
        exact match_by_payer_amount_mem ftp s t p mt h2
      · rw [if_neg hb] at h2; cases h2
    | none =>
      rw [h2] at h
      by_cases hn : t.amount < 0
      · rw [if_pos hn] at h
        exact match_refund_by_payer_mem s t p mt h
      · rw [if_neg hn] at h; cases h

/-- StrongInv is preserved by the transaction reconciler. -/
theorem strong_inv_txn_reconciler (ftp : ℚ) (s : Storage) (t : Txn)
    (h : StrongInv ftp s) : StrongInv ftp (transaction_reconciler ftp s t).1 := by
  unfold transaction_reconciler
  cases hf : find_payment ftp s t with
  | none => exact h
  | some pm =>
    obtain ⟨p, mt⟩ := pm
    simp only []
    exact strong_inv_link_step ftp s p t mt h
      (List.mem_map_of_mem Payment.payment_id (find_payment_mem ftp s t p mt hf))

/-- StrongInv is preserved by add_payment under the ingest guard, and
the stored record's id is stored afterwards. -/
theorem strong_inv_add_payment (ftp : ℚ) (s : Storage) (pin : PaymentIn)
    (hinv : StrongInv ftp s) (hguard : get_payment s pin.payment_id = none) :
    StrongInv ftp (add_payment s pin).1 ∧
      (add_payment s pin).2.payment_id ∈ (add_payment s pin).1.payments.map Payment.payment_id := by
  obtain ⟨hnd, href, hsum⟩ := hinv
  have hfresh : (add_payment s pin).2.payment_id ∉ s.payments.map Payment.payment_id := by
    cases hb : (pin.payment_id == "") with
    | true =>
      have : (add_payment s pin).2.payment_id =
          generate_id "pay" (s.payments.map Payment.payment_id) := by
        unfold add_payment
        simp [hb]
      rw [this]
      exact generate_id_not_mem _ _
    | false =>
      have hpid : (add_payment s pin).2.payment_id = pin.payment_id := by
        unfold add_payment
        simp [hb]
      rw [hpid]
      intro hmem
      obtain ⟨y, hy, hky⟩ := List.mem_map.mp hmem
      have := List.find?_eq_none.mp hguard y hy
      exact this (by simpa using hky)
  have happ : (add_payment s pin).1.payments = s.payments ++ [(add_payment s pin).2] := by
    show dict_insert Payment.payment_id s.payments (add_payment s pin).2 = _
    exact dict_insert_append Payment.payment_id s.payments _ hfresh
  have hlinks : (add_payment s pin).1.links = s.links := rfl
  have hrec0 : (add_payment s pin).2.received_amount = 0 := rfl
  have hrecst : (add_payment s pin).2.status = PaymentStatus.PENDING := rfl
  refine ⟨⟨?_, ?_, ?_⟩, ?_⟩
  · rw [happ, List.map_append, List.nodup_append]
    refine ⟨hnd, List.nodup_singleton _, ?_⟩
    intro a ha hb
    rw [List.map_singleton, List.mem_singleton] at hb
    exact hfresh (hb ▸ ha)
  · intro l hl
    rw [hlinks] at hl
    rw [happ, List.map_append]
    exact List.mem_append_left _ (href l hl)
  · intro r hr
    rw [happ] at hr
    rcases List.mem_append.mp hr with h | h
    · exact hsum r h
    · rw [List.mem_singleton] at h
      subst h
      constructor
      · rw [hlinks, hrec0]
        symm
        apply links_sum_zero
        intro l hl heq
        exact hfresh (heq ▸ href l hl)
      · rw [hrecst, hrec0]
        unfold calculate_payment_status
        rw [if_pos (le_refl (0 : ℚ))]
  · rw [happ, List.map_append]
    refine List.mem_append_right _ ?_
    rw [List.map_singleton]
    exact List.mem_singleton_self _

/-- StrongInv is preserved by one ingest. -/
theorem strong_inv_ingest (ftp : ℚ) (s : Storage) (e : Event) (h : StrongInv ftp s) :
    StrongInv ftp (ingest ftp s e) := by
  cases e with
  | payment pe =>
    show StrongInv ftp (process_payment_webhook ftp s pe)
    unfold process_payment_webhook
    cases hg : get_payment s pe.payment_id with
    | some v => simpa [hg] using h
    | none =>
      simp only [hg, Option.isSome_none, Bool.false_eq_true, if_false]
      have hstep := strong_inv_add_payment ftp s
        { payment_id := pe.payment_id, reference := some pe.reference,
          expected_amount := pe.expected_amount, currency := some pe.currency,
          payer_name := some pe.payer_name, payer_email := some pe.payer_email,
          due_date := some pe.due_date, description := pe.description } ⟨h.1, h.2.1, h.2.2⟩ hg
      rw [payment_reconciler]
      exact strong_inv_loop ftp _ _ _ _ hstep.1 hstep.2
  | txn te =>
    show StrongInv ftp (process_transaction_webhook ftp s te).1
    unfold process_transaction_webhook
    cases hg : get_transaction s te.transaction_id with
    | some v => simpa [hg] using h
    | none =>
      simp only [hg, Option.isSome_none, Bool.false_eq_true, if_false]
      exact strong_inv_txn_reconciler ftp _ _ (strong_inv_add_transaction ftp s _ h)

/-- StrongInv holds in every state reachable by ingests from the empty
repository. -/
theorem strong_inv_run (ftp : ℚ) (evts : List Event) : StrongInv ftp (run ftp evts) := by
  have hstep : ∀ (l : List Event) (s : Storage), StrongInv ftp s →
      StrongInv ftp (l.foldl (ingest ftp) s) := by
    intro l
    induction l with
    | nil => intro s h; exact h
    | cons e rest ih =>
      intro s h
      exact ih _ (strong_inv_ingest ftp s e h)
  refine hstep evts empty_storage ⟨?_, ?_, ?_⟩
  · simp [empty_storage]
  · intro l hl; cases hl
  · intro p hp; cases hp

/-- C1: after every sequence of successful ingests from the empty
repository, every stored payment's received_amount is the signed sum of
the amounts of the links referencing it and its status is
calculate_payment_status of its expected and received amounts; and the
record stored for a fresh payment has received_amount 0 and status
PENDING. -/
theorem c1_received_amount_invariant (ftp : ℚ) (evts : List Event) :
    (∀ p ∈ (run ftp evts).payments,
      p.received_amount = links_sum (run ftp evts).links p.payment_id ∧
      p.status = calculate_payment_status ftp p.expected_amount p.received_amount) ∧
    (∀ (s : Storage) (pin : PaymentIn),
      (add_payment s pin).2.received_amount = 0 ∧
      (add_payment s pin).2.status = PaymentStatus.PENDING) :=
  ⟨(strong_inv_run ftp evts).2.2, fun _ _ => ⟨rfl, rfl⟩⟩

/-! ### C8: the payment reconciler refines the claim's description -/

/-- Match decision of the payment reconciler as the claim words it, for
one visited transaction against the current repository state: a
reference match wins with its own type; otherwise AMOUNT_ONLY exactly
when the transaction has no reference, a positive amount, a matching
payer, and — on the payment re-read from the repository — a status of
PENDING or PARTIALLY_PAID and a remaining amount accepting the absolute
transaction amount. -/
def spec_match (ftp : ℚ) (s : Storage) (p : Payment) (t : Txn) : Option MatchType :=
  match match_reference t.reference p.reference with
  | some mt => some mt
  | none =>
    match get_payment s p.payment_id with
    | none => none
    | some cur =>
      if is_blank t.reference && decide (0 < t.amount) &&
          payer_matches t.payer_name p.payer_name &&
          (cur.status == PaymentStatus.PENDING || cur.status == PaymentStatus.PARTIALLY_PAID) &&
          amount_matches_remaining ftp |t.amount| cur then
        some MatchType.AMOUNT_ONLY
      else none

/-- One visit of the claim's loop: skip on currency mismatch, otherwise
link and update on a match, counting the linked transactions. -/
def spec_step (ftp : ℚ) (p : Payment) (acc : Storage × Nat) (t : Txn) : Storage × Nat :=
  if t.currency == p.currency then
    match spec_match ftp acc.1 p t with
    | some mt =>
      (update_payment_received ftp (create_reconciliation_link acc.1 p t mt) p.payment_id
        t.amount, acc.2 + 1)
    | none => acc
  else acc

/-- The payment reconciler as the claim describes it: fold the visit
step over the unmatched transactions in repository order. -/
def payment_reconciler_spec (ftp : ℚ) (s : Storage) (p : Payment) : Storage × Nat :=
  (get_unmatched_transactions s).foldl (spec_step ftp p) (s, 0)

/-- The source's per-transaction decision agrees with the claim's. -/
theorem check_match_eq_spec (ftp : ℚ) (s : Storage) (p : Payment) (t : Txn) :
    check_match ftp s p t = spec_match ftp s p t := by
  unfold check_match spec_match matches_by_payer_amount
  cases match_reference t.reference p.reference with
  | some mt => rfl
  | none =>
    simp only []
    cases hgp : get_payment s p.payment_id with
    | none =>
      cases hb : (is_blank t.reference && decide (0 < t.amount)) <;> simp [hb]
    | some cur =>
      cases hb : (is_blank t.reference && decide (0 < t.amount)) with
      | false => simp [hb]
      | true => simp only [hb, if_true, Bool.true_and, Bool.and_assoc]

/-- The source loop is the claim's fold. -/
theorem payment_loop_eq_spec_fold (ftp : ℚ) (p : Payment) (ts : List Txn) :
    ∀ (s : Storage) (c : Nat),
      payment_reconciler_loop ftp p ts s c = ts.foldl (spec_step ftp p) (s, c) := by
  induction ts with
  | nil => intro s c; rfl
  | cons t rest ih =>
    intro s c
    unfold payment_reconciler_loop
    rw [List.foldl_cons]
    unfold spec_step
    rw [← check_match_eq_spec]
    by_cases hc : (t.currency == p.currency) = true
    · simp only [hc, if_true]
      cases hm : check_match ftp s p t with
      | some mt => exact ih _ _
      | none => exact ih _ _
    · have hc' : (t.currency == p.currency) = false := by simpa using hc
      simp only [hc', Bool.false_eq_true, if_false]
      exact ih _ _

/-- Links grow by exactly one per counted hit across the loop. -/
theorem payment_loop_links_count (ftp : ℚ) (p : Payment) (ts : List Txn) :
    ∀ (s : Storage) (c : Nat),
      (payment_reconciler_loop ftp p ts s c).1.links.length + c =
        s.links.length + (payment_reconciler_loop ftp p ts s c).2 := by
  induction ts with
  | nil => intro s c; rfl
  | cons t rest ih =>
    intro s c
    unfold payment_reconciler_loop
    by_cases hc : (t.currency == p.currency) = true
    · simp only [hc, if_true]
      cases hm : check_match ftp s p t with
      | none => exact ih s c
      | some mt =>
        simp only []
        have hlen : (update_payment_received ftp (create_reconciliation_link s p t mt)
            p.payment_id t.amount).links.length = s.links.length + 1 := by
          rw [links_update_payment_received, links_create_link, List.length_append,
            List.length_singleton]
        have := ih (update_payment_received ftp (create_reconciliation_link s p t mt)
          p.payment_id t.amount) (c + 1)
        omega
    · have hc' : (t.currency == p.currency) = false := by simpa using hc
      simp only [hc', Bool.false_eq_true, if_false]
      exact ih s c

/-- C8: PaymentReconciler.__call__ visits the unmatched transactions in
repository insertion order, skips currency mismatches, links each
transaction by the match_reference type or — for reference-free,
positive-amount, payer-matching transactions accepted by the re-read
payment's status and remaining amount — by AMOUNT_ONLY, applying
update_payment_received per link; its result equals the claim-worded
fold, and the returned count is exactly the number of links added. -/
theorem c8_payment_reconciler_spec (ftp : ℚ) (s : Storage) (p : Payment) :
    payment_reconciler ftp s p = payment_reconciler_spec ftp s p ∧
    (payment_reconciler ftp s p).1.links.length =
      s.links.length + (payment_reconciler ftp s p).2 := by
  constructor
  · unfold payment_reconciler payment_reconciler_spec
    exact payment_loop_eq_spec_fold ftp p (get_unmatched_transactions s) s 0
  · have := payment_loop_links_count ftp p (get_unmatched_transactions s) s 0
    unfold payment_reconciler
    omega

/-- Witness for C5's amended theorem: the payment of scenario A ingested
twice from the empty repository. -/
theorem c5_ingest_idempotent_nonblank_witness :
    ingest 1 (ingest 1 empty_storage (Event.payment
      { payment_id := "P1", reference := "INV-1", expected_amount := 1000,
        currency := "USD", payer_name := "Alice", payer_email := "a@x",
        due_date := "2024-01-01", description := none })) (Event.payment
      { payment_id := "P1", reference := "INV-1", expected_amount := 1000,
        currency := "USD", payer_name := "Alice", payer_email := "a@x",
        due_date := "2024-01-01", description := none }) =
    ingest 1 empty_storage (Event.payment
      { payment_id := "P1", reference := "INV-1", expected_amount := 1000,
        currency := "USD", payer_name := "Alice", payer_email := "a@x",
        due_date := "2024-01-01", description := none }) :=
  c5_ingest_idempotent_nonblank 1 empty_storage _ (by decide)

end ReconService
